import Mathlib

/-!
# Verification of the Synthetic Drum Dataset Generator core

A shallow embedding of the procedural composition engine
(`drum_pattern_generator.py`, `harmony_generator.py`, `midi_song_builder.py`,
`drum_mapping.py`, the drum pattern tables, `song_specification.py`,
`instrument.py`, `band_configuration.py`) together with theorems settling the
spec claims about it.

Modelling conventions:

* Python floats are modelled as exact rationals (`ℚ`).  To keep every
  definition evaluable by the kernel, all rational arithmetic in the embedded
  code goes through the `Sdg.Q` operations below, which are built from
  `mkRat` and machine-integer arithmetic (these reduce definitionally) and are
  proved equal to Mathlib's field operations on `ℚ` by the `q*_eq` lemmas.
* The Python `random` module and `random.Random` instances are modelled as
  explicit streams of uniform draws (`RStream`): each call of
  `random.random()` pops one value.  The module-level/instance state that the
  source reads is passed in and threaded through explicitly.  A draw outside
  `[0, 1)` (which `random.random` can never produce) is normalised to `0`.
* `numpy.random` (used by the open-hat mutation) is a second, separate stream:
  nothing in the repository ever seeds it.
* `random.randint(a, b)` / `randrange(n)` / `choice(seq)` are modelled as one
  uniform draw mapped through `⌊u·n⌋`; `numpy.random.choice(idxs, k,
  replace=False)` as `k` successive such draws with removal.
* Python's stable `sorted` is modelled by a stable insertion sort
  (`pySorted`); stability plus the ordering determines the result uniquely.
* The float `**` operator appears with the non-integer exponents
  `0.5 + 1.5·complexity` and `1.2`.  `fpow` models it exactly for integer
  exponents; for non-integer exponents (irrational values in general) it
  returns a default and no theorem below depends on those values.
-/

namespace Sdg

/-! ## Executable rational arithmetic

`mkRat`, `Int` and `Nat` arithmetic reduce in the kernel, while the `ℚ`
field-operation instances do not.  The embedded code therefore uses the
operations below; the bridge lemmas identify them with the ordinary ones. -/

def qofInt (n : ℤ) : ℚ := mkRat n 1

def qofNat (n : ℕ) : ℚ := mkRat n 1

def qadd (a b : ℚ) : ℚ := mkRat (a.num * b.den + b.num * a.den) (a.den * b.den)

def qneg (a : ℚ) : ℚ := mkRat (-a.num) a.den

def qsub (a b : ℚ) : ℚ := qadd a (qneg b)

def qmul (a b : ℚ) : ℚ := mkRat (a.num * b.num) (a.den * b.den)

def qinv (a : ℚ) : ℚ :=
  if 0 ≤ a.num then mkRat (a.den : ℤ) a.num.toNat
  else mkRat (-(a.den : ℤ)) (-a.num).toNat

def qdiv (a b : ℚ) : ℚ := qmul a (qinv b)

def qleb (a b : ℚ) : Bool := decide (a.num * (b.den : ℤ) ≤ b.num * (a.den : ℤ))

def qltb (a b : ℚ) : Bool := decide (a.num * (b.den : ℤ) < b.num * (a.den : ℤ))

def qfloor (a : ℚ) : ℤ := a.num / (a.den : ℤ)

/-- Python `int(x)`: truncation towards zero. -/
def qtrunc (a : ℚ) : ℤ := a.num.tdiv (a.den : ℤ)

def ipow (x : ℤ) : ℕ → ℤ
  | 0 => 1
  | n + 1 => x * ipow x n

def npowN (x : ℕ) : ℕ → ℕ
  | 0 => 1
  | n + 1 => x * npowN x n

def qpow (x : ℚ) (k : ℕ) : ℚ := mkRat (ipow x.num k) (npowN x.den k)

/-- Model of the float `**` operator; exact for integer exponents, default `0`
for non-integer ones (no theorem depends on the non-integer case). -/
def fpow (x e : ℚ) : ℚ :=
  if e.den = 1 then
    (if 0 ≤ e.num then qpow x e.num.toNat else qinv (qpow x (-e.num).toNat))
  else 0

theorem qofInt_eq (n : ℤ) : qofInt n = (n : ℚ) := by
  simp [qofInt, Rat.mkRat_eq_div]

theorem qofNat_eq (n : ℕ) : qofNat n = (n : ℚ) := by
  simp [qofNat, Rat.mkRat_eq_div]

theorem den_cast_ne_zero (a : ℚ) : ((a.den : ℤ) : ℚ) ≠ 0 := by
  exact_mod_cast a.den_nz

theorem qadd_eq (a b : ℚ) : qadd a b = a + b := by
  rw [qadd, Rat.mkRat_eq_div]
  conv_rhs => rw [← Rat.num_div_den a, ← Rat.num_div_den b]
  rw [div_add_div _ _ (by exact_mod_cast a.den_nz) (by exact_mod_cast b.den_nz)]
  push_cast
  ring_nf

theorem qneg_eq (a : ℚ) : qneg a = -a := by
  rw [qneg, Rat.mkRat_eq_div]
  conv_rhs => rw [← Rat.num_div_den a]
  push_cast
  ring_nf

theorem qsub_eq (a b : ℚ) : qsub a b = a - b := by
  rw [qsub, qadd_eq, qneg_eq, sub_eq_add_neg]

theorem qmul_eq (a b : ℚ) : qmul a b = a * b := by
  rw [qmul, Rat.mkRat_eq_div]
  conv_rhs => rw [← Rat.num_div_den a, ← Rat.num_div_den b]
  rw [div_mul_div_comm]
  push_cast
  ring_nf

theorem qinv_eq (a : ℚ) : qinv a = a⁻¹ := by
  rcases le_or_lt 0 a.num with h | h
  · have hcast : ((a.num.toNat : ℕ) : ℚ) = (a.num : ℚ) := by
      exact_mod_cast Int.toNat_of_nonneg h
    rw [qinv, if_pos h, Rat.mkRat_eq_div, hcast]
    conv_rhs => rw [← Rat.num_div_den a, inv_div]
    push_cast
    ring_nf
  · have hcast : (((-a.num).toNat : ℕ) : ℚ) = ((-a.num : ℤ) : ℚ) := by
      exact_mod_cast Int.toNat_of_nonneg (by omega : (0:ℤ) ≤ -a.num)
    rw [qinv, if_neg (not_le.mpr h), Rat.mkRat_eq_div, hcast]
    conv_rhs => rw [← Rat.num_div_den a, inv_div]
    push_cast
    rw [neg_div_neg_eq]

theorem qdiv_eq (a b : ℚ) : qdiv a b = a / b := by
  rw [qdiv, qmul_eq, qinv_eq, div_eq_mul_inv]

theorem qleb_iff (a b : ℚ) : qleb a b = true ↔ a ≤ b := by
  rw [qleb, decide_eq_true_eq]
  constructor
  · intro h
    rw [← Rat.num_div_den a, ← Rat.num_div_den b,
      div_le_div_iff (by exact_mod_cast a.pos) (by exact_mod_cast b.pos)]
    exact_mod_cast h
  · intro h
    rw [← Rat.num_div_den a, ← Rat.num_div_den b,
      div_le_div_iff (by exact_mod_cast a.pos) (by exact_mod_cast b.pos)] at h
    exact_mod_cast h

theorem qltb_iff (a b : ℚ) : qltb a b = true ↔ a < b := by
  rw [qltb, decide_eq_true_eq]
  constructor
  · intro h
    rw [← Rat.num_div_den a, ← Rat.num_div_den b,
      div_lt_div_iff (by exact_mod_cast a.pos) (by exact_mod_cast b.pos)]
    exact_mod_cast h
  · intro h
    rw [← Rat.num_div_den a, ← Rat.num_div_den b,
      div_lt_div_iff (by exact_mod_cast a.pos) (by exact_mod_cast b.pos)] at h
    exact_mod_cast h

theorem qfloor_eq (a : ℚ) : qfloor a = ⌊a⌋ := Rat.floor_def.symm

theorem ipow_eq (x : ℤ) (n : ℕ) : ipow x n = x ^ n := by
  induction n with
  | zero => rfl
  | succ k ih => rw [ipow, ih, pow_succ]; ring

theorem npowN_eq (x : ℕ) (n : ℕ) : npowN x n = x ^ n := by
  induction n with
  | zero => rfl
  | succ k ih => rw [npowN, ih, pow_succ]; ring

theorem qpow_eq (x : ℚ) (k : ℕ) : qpow x k = x ^ k := by
  rw [qpow, ipow_eq, npowN_eq, Rat.mkRat_eq_div]
  conv_rhs => rw [← Rat.num_div_den x]
  rw [div_pow]
  push_cast
  ring_nf

/-! ## ASCII string helpers

Structural-recursion models of the Python `str` methods used by the source
(`lower`, `islower`, `replace`, `strip`, substring containment), working on
`List Char` so that the kernel can evaluate them. -/

def asciiLowerChar (c : Char) : Char :=
  if 'A' ≤ c ∧ c ≤ 'Z' then Char.ofNat (c.toNat + 32) else c

def lowerL (s : List Char) : List Char := s.map asciiLowerChar

def isAsciiLowerChar (c : Char) : Bool := decide ('a' ≤ c ∧ c ≤ 'z')

def isAsciiCasedChar (c : Char) : Bool :=
  isAsciiLowerChar c || decide ('A' ≤ c ∧ c ≤ 'Z')

/-- Python `str.islower` (over the ASCII alphabet the tables use): at least
one cased character, and every cased character lowercase. -/
def pyIsLower (s : List Char) : Bool :=
  s.any isAsciiCasedChar && s.all (fun c => !isAsciiCasedChar c || isAsciiLowerChar c)

/-- Python `pat in s` (substring containment). -/
def containsSub (s pat : List Char) : Bool :=
  match s with
  | [] => pat.isEmpty
  | _ :: t => pat.isPrefixOf s || containsSub t pat

def isPySpace (c : Char) : Bool :=
  c = ' ' || c = '\t' || c = '\n' || c = '\r'

/-- Python `str.strip()`. -/
def pyStrip (s : List Char) : List Char :=
  ((s.dropWhile isPySpace).reverse.dropWhile isPySpace).reverse

def replaceFuel : ℕ → List Char → List Char → List Char → List Char
  | 0, s, _, _ => s
  | _, [], _, _ => []
  | fuel + 1, c :: rest, pat, rep =>
    if pat.isPrefixOf (c :: rest) && !pat.isEmpty then
      rep ++ replaceFuel fuel ((c :: rest).drop pat.length) pat rep
    else
      c :: replaceFuel fuel rest pat rep

/-- Python `str.replace` (all non-overlapping occurrences, left to right). -/
def replaceL (s pat rep : List Char) : List Char := replaceFuel s.length s pat rep

/-! ## The `random` model

A stream of uniform draws; `pyRandom` pops one value (normalising anything
outside `random.random`'s range `[0,1)` to `0`, and yielding `0` once the
stream is exhausted).  `numpy.random`'s global generator — which the
repository never seeds — is a second stream of the same type. -/

abbrev RStream := List ℚ

def pyRandom : RStream → ℚ × RStream
  | [] => (0, [])
  | u :: g => (if qleb 0 u && qltb u 1 then u else 0, g)

/-- `random.randint(a, b)` (both ends inclusive). -/
def pyRandint (a b : ℤ) (g : RStream) : ℤ × RStream :=
  let (u, g') := pyRandom g
  (a + qfloor (qmul u (qofInt (b - a + 1))), g')

/-- `random.randrange(n)`. -/
def pyRandrange (n : ℕ) (g : RStream) : ℕ × RStream :=
  let (u, g') := pyRandom g
  ((qfloor (qmul u (qofNat n))).toNat, g')

/-- `random.choice(l)` (`dflt` stands in for the `IndexError` on an empty
sequence, which the source never triggers). -/
def pyChoice (l : List α) (dflt : α) (g : RStream) : α × RStream :=
  let (i, g') := pyRandrange l.length g
  (l.getD i dflt, g')

/-- `numpy.random.choice(l, size := n, replace := False)`: `n` successive
draws, each picking and removing one element. -/
def npChoice : List ℕ → ℕ → RStream → List ℕ × RStream
  | _, 0, np => ([], np)
  | l, n + 1, np =>
    let (i, np') := pyRandrange l.length np
    let picked := l.getD i 0
    let rest := l.take i ++ l.drop (i + 1)
    let (more, np'') := npChoice rest n np'
    (picked :: more, np'')

/-- The cumulative-weight scan
`cum = 0; for (x, w) in pairs: cum += w; if r <= cum: return x`,
falling back to `last` when the loop runs out. -/
def cumSelect : List (α × ℚ) → ℚ → ℚ → α → α
  | [], _, _, last => last
  | (x, w) :: rest, cum, r, last =>
    let cum' := qadd cum w
    if qleb r cum' then x else cumSelect rest cum' r last

theorem pyRandom_fst_nonneg (g : RStream) : 0 ≤ (pyRandom g).1 := by
  match g with
  | [] => exact le_refl 0
  | u :: t =>
    by_cases h : (qleb 0 u && qltb u 1) = true
    · simp only [pyRandom, h, if_pos rfl]
      exact (qleb_iff 0 u).mp (by exact (Bool.and_eq_true _ _).mp h |>.1)
    · simp only [pyRandom]
      rw [if_neg (by simpa using h)]

theorem pyRandom_fst_lt_one (g : RStream) : (pyRandom g).1 < 1 := by
  match g with
  | [] => norm_num [pyRandom]
  | u :: t =>
    by_cases h : (qleb 0 u && qltb u 1) = true
    · simp only [pyRandom, h, if_pos rfl]
      exact (qltb_iff u 1).mp ((Bool.and_eq_true _ _).mp h |>.2)
    · simp only [pyRandom]
      rw [if_neg (by simpa using h)]
      norm_num

/-- A `randrange(n)` result over a nonempty range is in range. -/
theorem pyRandrange_lt (n : ℕ) (hn : 0 < n) (g : RStream) :
    (pyRandrange n g).1 < n := by
  have h0 := pyRandom_fst_nonneg g
  have h1 := pyRandom_fst_lt_one g
  have hfloor : qfloor (qmul (pyRandom g).1 (qofNat n)) < (n : ℤ) := by
    rw [qfloor_eq, qmul_eq, qofNat_eq]
    have : (pyRandom g).1 * (n : ℚ) < (n : ℚ) := by
      have hnq : (0 : ℚ) < (n : ℚ) := by exact_mod_cast hn
      calc (pyRandom g).1 * (n : ℚ) < 1 * (n : ℚ) := by
            exact mul_lt_mul_of_pos_right h1 hnq
        _ = (n : ℚ) := one_mul _
    exact_mod_cast Int.floor_lt.mpr (by exact_mod_cast this)
  have : (qfloor (qmul (pyRandom g).1 (qofNat n))).toNat < n := by omega
  simpa [pyRandrange] using this

/-- A `choice` from a nonempty list is an element of the list. -/
theorem pyChoice_mem (l : List α) (hl : l ≠ []) (dflt : α) (g : RStream) :
    (pyChoice l dflt g).1 ∈ l := by
  have hlen : 0 < l.length := List.length_pos.mpr hl
  have hlt := pyRandrange_lt l.length hlen g
  simp only [pyChoice]
  rw [List.getD_eq_getElem l dflt hlt]
  exact List.getElem_mem hlt

/-- A `cumSelect` result is an element of the scanned list or the fallback. -/
theorem cumSelect_mem (pairs : List (α × ℚ)) (cum r : ℚ) (last : α) :
    cumSelect pairs cum r last ∈ pairs.map Prod.fst ∨
      cumSelect pairs cum r last = last := by
  induction pairs generalizing cum with
  | nil => exact Or.inr rfl
  | cons p rest ih =>
    obtain ⟨x, w⟩ := p
    simp only [cumSelect]
    by_cases h : qleb r (qadd cum w) = true
    · rw [if_pos h]; exact Or.inl (by simp)
    · rw [if_neg h]
      rcases ih (qadd cum w) with hmem | hlast
      · exact Or.inl (by simp [hmem])
      · exact Or.inr hlast

/-! ## Data model (`instrument.py`, `drum_mapping.py`, `band_configuration.py`,
`song_specification.py`, event dataclasses) -/

/-- `DrumEvent` from `drum_pattern_generator.py`. -/
structure DrumEvent where
  time_sec : ℚ
  drum_class : String
  velocity : ℤ
deriving DecidableEq, Repr

/-- `NoteEvent` from `harmony_generator.py`. -/
structure NoteEvent where
  start_time : ℚ
  end_time : ℚ
  pitch : ℤ
  velocity : ℤ
  channel : ℤ
deriving DecidableEq, Repr

/-- `DrumMapping` (its three tables; dicts as insertion-ordered assoc lists). -/
structure DrumMapping where
  note_to_class : List (ℤ × String)
  class_to_notes : List (String × List ℤ)
  core_classes : List String
deriving DecidableEq, Repr

/-- `DrumMapping.get_primary_note_for_class`: first note of the class's list;
`KeyError` (modelled as `.error`) when the class is unknown or has no notes. -/
def getPrimaryNoteForClass (m : DrumMapping) (drum_class : String) :
    Except String ℤ :=
  match m.class_to_notes.lookup drum_class with
  | none => .error ("Unbekannte Drum-Klasse: " ++ drum_class)
  | some notes =>
    match notes with
    | [] => .error ("Drum-Klasse " ++ drum_class ++ " hat keine zugeordneten Noten.")
    | n :: _ => .ok n

/-- `Instrument`. -/
structure Instrument where
  name : String
  gm_program : ℤ
  channel : ℤ
  volume : ℚ
  pan : ℚ
  role : String
deriving DecidableEq, Repr

/-- `BandConfiguration` (the fields the generators and the builder read). -/
structure BandConfiguration where
  drum_channel : ℤ
  drum_mapping : DrumMapping
  instruments : List Instrument
deriving DecidableEq, Repr

/-- `SongSpecification`.  `number_of_bars` is `ℕ`: the spec requires a
positive bar count and `range(number_of_bars)` is what the generators use. -/
structure SongSpecification where
  song_identifier : String
  tempo_bpm : ℚ
  time_signature : ℤ × ℤ
  number_of_bars : ℕ
  key : String
  style : String
  band_configuration : BandConfiguration
  random_seed : ℤ
deriving DecidableEq, Repr

/-! ## Drum pattern libraries (`src/script/drum_patterns/…`)

Pure data: pattern name → (drum class → 16-step hit string), in source
(dict-insertion) order.  Only the libraries reachable from
`DrumPatternGenerator._select_pattern_library` are transcribed. -/

abbrev DrumPattern := List (String × String)

abbrev DrumPatternLib := List (String × DrumPattern)

def popStraightStepResolution : ℕ := 16

def popStraightPatterns : DrumPatternLib := [
  ("pop_straight_01_basic", [
    ("KICK", "x-------x-------"),
    ("SNARE", "----x-------x---"),
    ("HH_CLOSED", "x-x-x-x-x-x-x-x-")]),
  ("pop_straight_02_kick_syncopated", [
    ("KICK", "x-----x-x-----x-"),
    ("SNARE", "----x-------x---"),
    ("HH_CLOSED", "x-x-x-x-x-x-x-x-"),
    ("CRASH", "x---------------")]),
  ("pop_straight_03_drive", [
    ("KICK", "x-x-----x-x-----"),
    ("SNARE", "----x-------x---"),
    ("HH_CLOSED", "x-x-x-x-x-x-x-x-"),
    ("HH_OPEN", "--------------x-")]),
  ("pop_straight_04_syncopated", [
    ("KICK", "x--x--x-x--x----"),
    ("SNARE", "----x-------x---"),
    ("HH_CLOSED", "x-x-x-x-x-x-x-x-")]),
  ("pop_straight_05_16th_hats", [
    ("KICK", "x--x--x-x-----x-"),
    ("SNARE", "----x-------x---"),
    ("HH_CLOSED", "xxxxxxxxxxxxxxxx")]),
  ("pop_straight_06_sidestick_verse", [
    ("KICK", "x-----x-x-------"),
    ("SNARE", "------------x---"),
    ("SIDESTICK", "----x-----------"),
    ("HH_CLOSED", "x-x-x-x-x-x-x-x-")]),
  ("pop_straight_07_pre_chorus", [
    ("KICK", "x--x--x-x-x---x-"),
    ("SNARE", "----x-------x---"),
    ("HH_CLOSED", "x-x-x-x-x-x-x-x-"),
    ("HH_OPEN", "-------------x--")]),
  ("pop_straight_08_chorus_four_on_floor", [
    ("KICK", "x---x---x---x---"),
    ("SNARE", "----x-------x---"),
    ("RIDE", "x-x-x-x-x-x-x-x-"),
    ("CRASH", "x---------------")]),
  ("pop_straight_09_tom_pickup", [
    ("KICK", "x-------x-------"),
    ("SNARE", "----x-------x---"),
    ("HH_CLOSED", "x-x-x-x-x-x-x-x-"),
    ("TOM_LOW", "------------x---"),
    ("TOM_MID", "-------------x--"),
    ("TOM_HIGH", "--------------x-")]),
  ("pop_straight_10_broken_hats", [
    ("KICK", "x-----x-x-----x-"),
    ("SNARE", "----x-------x---"),
    ("HH_CLOSED", "x-x-x-x-x-x-x-x-")])]

def rockStepResolution : ℕ := 16

def rockPatterns : DrumPatternLib := [
  ("rock16_01_basic", [
    ("KICK", "x-------x-----x-"),
    ("SNARE", "----x-------x---"),
    ("HH_CLOSED", "xxxxxxxxxxxxxxxx")]),
  ("rock16_02_syncopated", [
    ("KICK", "x--x--x-x----x--"),
    ("SNARE", "----x-------x---"),
    ("HH_CLOSED", "xxxxxxxxxxxxxxxx")]),
  ("rock16_03_californication_like", [
    ("KICK", "x--------x------"),
    ("SNARE", "----x-x---x--x-x"),
    ("HH_CLOSED", "xxxxxxxxxxxxxxxx")]),
  ("rock16_04_hat_accents", [
    ("KICK", "x-----x-x-----x-"),
    ("SNARE", "----x-------x---"),
    ("HH_CLOSED", "x-xxx-xxx-xxx-xx")]),
  ("rock16_05_broken_hat_riff", [
    ("KICK", "x--x--x-x--x--x-"),
    ("SNARE", "----x-------x---"),
    ("HH_CLOSED", "x-x--x-xx-x--x-x")]),
  ("rock16_06_chorus_drive", [
    ("KICK", "x-xx--x-x-xx--x-"),
    ("SNARE", "----x-------x---"),
    ("HH_CLOSED", "xxxxxxxxxxxxxxxx")]),
  ("rock16_07_half_time_feel", [
    ("KICK", "x---x--x----x--x"),
    ("SNARE", "--------x-------"),
    ("HH_CLOSED", "xxxxxxxxxxxxxxxx")]),
  ("rock16_08_pre_chorus_build", [
    ("KICK", "x-----x-x-x-x-x-"),
    ("SNARE", "----x-------x---"),
    ("HH_CLOSED", "xxxxx-xxxxxxx-xx")]),
  ("rock16_09_tom_groove", [
    ("KICK", "x-------x--x----"),
    ("SNARE", "----x-------x---"),
    ("HH_CLOSED", "xxxxxxxxxxxxxxxx"),
    ("TOM_LOW", "--------xxxx----")]),
  ("rock16_10_ride_variant", [
    ("KICK", "x--x--x-x--x--x-"),
    ("SNARE", "----x-------x---"),
    ("RIDE", "xxxxxxxxxxxxxxxx"),
    ("HH_OPEN", "--------------x-")])]

def funkStepResolution : ℕ := 16

def funkPatterns : DrumPatternLib := [
  ("funk_01_basic", [
    ("KICK", "x--x--x-x--x--x-"),
    ("SNARE", "----x-------x---"),
    ("HH_CLOSED", "xxxxxxxxxxxxxxxx")]),
  ("funk_02_linear_flavor", [
    ("KICK", "x-xx----x-xx----"),
    ("SNARE", "----x-------x---"),
    ("HH_CLOSED", "-x-xx-x--x-xx-x-")]),
  ("funk_03_ghosts_between", [
    ("KICK", "x-----x-x--x----"),
    ("SNARE", "----x-x---x-x-x-"),
    ("HH_CLOSED", "xxxxxxxxxxxxxxxx")]),
  ("funk_04_open_hat_offbeats", [
    ("KICK", "x--x--x-x--x--x-"),
    ("SNARE", "----x-------x---"),
    ("HH_CLOSED", "x-x-x-x-x-x-x-x-"),
    ("HH_OPEN", "------x-------x-")]),
  ("funk_05_sparse_hat_busy_kick", [
    ("KICK", "x-xx-x-xx-xx-x-x"),
    ("SNARE", "----x-------x---"),
    ("HH_CLOSED", "x---x---x---x---")]),
  ("funk_06_snare_displaced", [
    ("KICK", "x--x--x-x--x--x-"),
    ("SNARE", "-----x----x-x--x"),
    ("HH_CLOSED", "xxxxxxxxxxxxxxxx")]),
  ("funk_07_hat_barks", [
    ("KICK", "x--x--x-x--x--x-"),
    ("SNARE", "----x-------x---"),
    ("HH_CLOSED", "xxxxxxxxxxxxxxxx"),
    ("HH_OPEN", "---x--x----x--x-")]),
  ("funk_08_tom_linear", [
    ("KICK", "x--x----x--x----"),
    ("SNARE", "----x-------x---"),
    ("HH_CLOSED", "xxxxxxxxxxxxxxxx"),
    ("TOM_LOW", "--------xx------"),
    ("TOM_MID", "----------xx----")]),
  ("funk_09_busy_hands", [
    ("KICK", "x-----x-x-----x-"),
    ("SNARE", "--x-x-x--x-xx-x-"),
    ("HH_CLOSED", "xxxxxxxxxxxxxxxx")]),
  ("funk_10_ghost_ladder", [
    ("KICK", "x-xx--x-x-xx--x-"),
    ("SNARE", "--x-x-xx--x-x-xx"),
    ("HH_CLOSED", "xxxxxxxxxxxxxxxx")])]

def discoStepResolution : ℕ := 16

def discoPatterns : DrumPatternLib := [
  ("disco_01_classic", [
    ("KICK", "x---x---x---x---"),
    ("SNARE", "----x-------x---"),
    ("HH_CLOSED", "x-x-x-x-x-x-x-x-"),
    ("HH_OPEN", "-x-x-x-x-x-x-x-x")]),
  ("disco_02_pure_offbeat_open", [
    ("KICK", "x---x---x---x---"),
    ("SNARE", "----x-------x---"),
    ("HH_CLOSED", "x---x---x---x---"),
    ("HH_OPEN", "-x-x-x-x-x-x-x-x")]),
  ("disco_03_ride_chorus", [
    ("KICK", "x---x---x---x---"),
    ("SNARE", "----x-------x---"),
    ("RIDE", "x-x-x-x-x-x-x-x-"),
    ("HH_OPEN", "-x-x-x-x-x-x-x-x")]),
  ("disco_04_kick_anticipations", [
    ("KICK", "x-xxx-xxx-xxx-xx"),
    ("SNARE", "----x-------x---"),
    ("HH_CLOSED", "x-x-x-x-x-x-x-x-"),
    ("HH_OPEN", "-x-x-x-x-x-x-x-x")]),
  ("disco_05_snare_strong", [
    ("KICK", "x---x---x---x---"),
    ("SNARE", "----x-------x---"),
    ("HH_CLOSED", "x-x-x-x-x-x-x-x-")]),
  ("disco_06_breakdown", [
    ("KICK", "x---x---x---x---"),
    ("SNARE", "------------x---"),
    ("HH_CLOSED", "----------------"),
    ("HH_OPEN", "-x-x-x-x-x-x-x-x")]),
  ("disco_07_buildup_16th", [
    ("KICK", "x---x---x---x---"),
    ("SNARE", "----x-------x---"),
    ("HH_CLOSED", "xxxxxxxxxxxxxxxx"),
    ("HH_OPEN", "-x-x-x-x-x-x-x-x")]),
  ("disco_08_big_chorus", [
    ("KICK", "x---x---x---x---"),
    ("SNARE", "----x-------x---"),
    ("HH_CLOSED", "x-x-x-x-x-x-x-x-"),
    ("HH_OPEN", "-x-x-x-x-x-x-x-x"),
    ("CRASH", "x---x---x---x---")]),
  ("disco_09_tom_fill", [
    ("KICK", "x---x---x---x---"),
    ("SNARE", "----x-------x---"),
    ("HH_CLOSED", "x-x-x-x-x-x-x-x-"),
    ("HH_OPEN", "-x-x-x-x-x-x-x-x"),
    ("TOM_LOW", "------------xx--"),
    ("TOM_MID", "--------------xx")]),
  ("disco_10_ride_bell", [
    ("KICK", "x---x---x---x---"),
    ("SNARE", "----x-------x---"),
    ("RIDE", "-x-x-x-x-x-x-x-x"),
    ("HH_OPEN", "-x-x-x-x-x-x-x-x")])]

def shuffleStepResolution : ℕ := 16

/-- The shuffle library (the generator imports it as `shuffle_patterns`;
its table is the repository's half-time-shuffle pattern set). -/
def shufflePatterns : DrumPatternLib := [
  ("shuffle_01_basic_half_time", [
    ("KICK", "x-------x-----x-"),
    ("SNARE", "--------x-------"),
    ("HH_CLOSED", "x-x-x-x-x-x-x-x-")]),
  ("shuffle_02_rosanna_flavor", [
    ("KICK", "x-x-----x-x---x-"),
    ("SNARE", "------x-x-x---x-"),
    ("HH_CLOSED", "x-x-x-x-x-x-x-x-")]),
  ("shuffle_03_purdie_like", [
    ("KICK", "x-----x-x-----x-"),
    ("SNARE", "--x--x-xx-x--x-x"),
    ("HH_CLOSED", "x-x-x-x-x-x-x-x-")]),
  ("shuffle_04_light_verse", [
    ("KICK", "x-------x-------"),
    ("SNARE", "--------x-----x-"),
    ("HH_CLOSED", "x-x-x-x-x-x-x-x-")]),
  ("shuffle_05_heavy_chorus", [
    ("KICK", "x-x-----x-x---x-"),
    ("SNARE", "--------x-------"),
    ("HH_CLOSED", "x-x-x-x-x-x-x-x-"),
    ("CRASH", "--------x-------")]),
  ("shuffle_06_tom_fill", [
    ("KICK", "x-------x-------"),
    ("SNARE", "--------x-------"),
    ("HH_CLOSED", "x-x-x-x-x-x-x-x-"),
    ("TOM_LOW", "---------xx-----"),
    ("TOM_MID", "----------xx----")]),
  ("shuffle_07_ride", [
    ("KICK", "x-------x-----x-"),
    ("SNARE", "--------x-------"),
    ("RIDE", "x-x-x-x-x-x-x-x-")]),
  ("shuffle_08_ghost_ladder", [
    ("KICK", "x-x-----x-x---x-"),
    ("SNARE", "--x-x-xxx-x-x-xx"),
    ("HH_CLOSED", "x-x-x-x-x-x-x-x-")]),
  ("shuffle_09_straight_kick_shuffled_hat", [
    ("KICK", "x-----x-x-----x-"),
    ("SNARE", "--------x-------"),
    ("HH_CLOSED", "x-x-x-x-x-x-x-x-")]),
  ("shuffle_10_breakdown", [
    ("KICK", "x---------------"),
    ("SNARE", "--x-x-x-x---x-x-"),
    ("HH_CLOSED", "x-x-x-x-x-x-x-x-")])]

/-! ## Drum pattern generator (`drum_pattern_generator.py`)

The class instance holds the construction parameters; the module-level
`random` stream and the `numpy.random` stream are passed explicitly (the
source reads the process-global generators). -/

/-- The construction parameters of `DrumPatternGenerator`
(`step_resolution` is initialised to 16 and overwritten per song from the
selected library). -/
structure DrumPatternGenerator where
  drum_mapping : DrumMapping
  complexity : ℚ
  ghostnote_probability : ℚ
  fill_probability : ℚ
  swing_amount : ℚ
  pause_probability : ℚ
  step_resolution : ℕ
deriving DecidableEq, Repr

/-- `_select_pattern_library`: substring dispatch on the lowercase style. -/
def selectPatternLibrary (style : String) : DrumPatternLib × ℕ :=
  let s := lowerL style.data
  if containsSub s "funk".data then (funkPatterns, funkStepResolution)
  else if containsSub s "disco".data then (discoPatterns, discoStepResolution)
  else if containsSub s "shuffle".data then (shufflePatterns, shuffleStepResolution)
  else if containsSub s "rock".data then (rockPatterns, rockStepResolution)
  else (popStraightPatterns, popStraightStepResolution)

/-- `_pattern_str_to_array`: a zero-initialised boolean array of length
`subdivisions`, position `i` set when the `i`-th character (lowercased)
is `x`. -/
def patternStrToArray (pattern : String) (subdivisions : ℕ) : List Bool :=
  (List.range subdivisions).map (fun i =>
    match pattern.data.get? i with
    | some c => decide (asciiLowerChar c = 'x')
    | none => false)

/-- `_pattern_dict_to_arrays`. -/
def patternDictToArrays (pattern_dict : DrumPattern) (subdivisions : ℕ) :
    List (String × List Bool) :=
  pattern_dict.map (fun kv => (kv.1, patternStrToArray kv.2 subdivisions))

/-- Hit count of a pattern over all of its drum voices (the "density" of
`_choose_pattern_name`). -/
def patternDensity (p : DrumPattern) : ℕ :=
  (p.map (fun kv => kv.2.data.countP (fun c => decide (c = 'x')))).sum

/-- `_choose_pattern_name`: density-weighted categorical choice blended
between favour-simple and favour-dense by `complexity`, with a
`0.1·complexity` chance of a uniform override. -/
def choosePatternName (complexity : ℚ) (patterns_dict : DrumPatternLib)
    (g : RStream) : String × RStream :=
  let names := patterns_dict.map Prod.fst
  let densities := patterns_dict.map (fun kv =>
    let d := patternDensity kv.2
    if 0 < d then qofNat d else mkRat 1 1)
  let max_d := densities.foldl (fun m d => if qltb m d then d else m) (mkRat 0 1)
  if qleb max_d (mkRat 0 1) then pyChoice names "" g
  else
    let norm := densities.map (fun d => qdiv d max_d)
    let exp := qadd (mkRat 1 2) (qmul (mkRat 3 2) complexity)
    let weights_dense := norm.map (fun x => fpow x exp)
    let weights_simple := norm.map (fun x => fpow (qsub (mkRat 1 1) x) exp)
    let weights0 := List.zipWith
      (fun ws wd => qadd (qmul (qsub (mkRat 1 1) complexity) ws) (qmul complexity wd))
      weights_simple weights_dense
    let wsum := weights0.foldl qadd (mkRat 0 1)
    let weights := weights0.map (fun w => qdiv w wsum)
    let (u, g) := pyRandom g
    if qltb u (qmul (mkRat 1 10) complexity) then pyChoice names "" g
    else
      let (r, g) := pyRandom g
      (cumSelect (names.zip weights) (mkRat 0 1) r (names.getLastD ""), g)

/-- The shift mutation: every active step moved by `shift`, steps leaving the
index range dropped (`new_idx = indices + shift`, filtered to range). -/
def shiftArray (a : List Bool) (shift : ℤ) : List Bool :=
  (List.range a.length).map (fun j =>
    let k := (j : ℤ) - shift
    if 0 ≤ k ∧ k < (a.length : ℤ) then a.getD k.toNat false else false)

/-- `n` random toggle flips (`a[idx] = ~a[idx]` at `randrange(len)` each). -/
def applyToggles : ℕ → List Bool → RStream → List Bool × RStream
  | 0, a, g => (a, g)
  | n + 1, a, g =>
    let (idx, g') := pyRandrange a.length g
    applyToggles n (a.set idx (!(a.getD idx false))) g'

/-- `a[start:stop] = False`. -/
def pySliceClear (a : List Bool) (start stop : ℕ) : List Bool :=
  List.zipWith (fun i b => if start ≤ i ∧ i < stop then false else b)
    (List.range a.length) a

/-- The fixed "broken" closed-hat mask. -/
def brokenMask : List Bool :=
  [true, false, true, false, false, true, false, false,
   true, false, true, false, false, true, false, false]

/-- `np.resize(mask, shape)`: cyclic repetition to the requested length. -/
def resizeMask (mask : List Bool) (n : ℕ) : List Bool :=
  (List.range n).map (fun i => mask.getD (i % mask.length) false)

/-- The three closed-hat thinning strategies of `_mutate_bar_arrays`. -/
def applyHHThin (mode : String) (a : List Bool) : List Bool :=
  if mode = "eighths" then
    List.zipWith (fun i b => if i % 2 = 1 then false else b) (List.range a.length) a
  else if mode = "offbeat" then
    List.zipWith (fun i b => if i % 2 = 0 then false else b) (List.range a.length) a
  else
    let mask := if brokenMask.length ≠ a.length then resizeMask brokenMask a.length
      else brokenMask
    List.zipWith (fun x y => x && y) a mask

/-- `np.flatnonzero`. -/
def activeIdx (a : List Bool) : List ℕ :=
  (List.range a.length).filter (fun i => a.getD i false)

def indicator (len : ℕ) (idxs : List ℕ) : List Bool :=
  (List.range len).map (fun i => idxs.contains i)

def orArrays (a b : List Bool) : List Bool := List.zipWith (fun x y => x || y) a b

/-- First-occurrence in-place update of an assoc list (a Python dict update
of an existing key keeps its position). -/
def updateAssoc [DecidableEq κ] : List (κ × α) → κ → (α → α) → List (κ × α)
  | [], _, _ => []
  | (k, v) :: rest, key, f =>
    if k = key then (k, f v) :: rest else (k, v) :: updateAssoc rest key f

/-- The per-voice loop body of `_mutate_bar_arrays` (shift, toggles, and the
closed-hat thinning/opening), threading the `random` stream `g`, the
`numpy.random` stream `np`, and the open-hat merge accumulator. -/
def mutateVoices (c shift_prob toggle_prob : ℚ) :
    List (String × List Bool) → Option (List Bool) → RStream → RStream →
      List (String × List Bool) × Option (List Bool) × RStream × RStream
  | [], merge, g, np => ([], merge, g, np)
  | (drum_class, arr) :: rest, merge, g, np =>
    let u1p := pyRandom g
    let s1 :=
      if qltb u1p.1 shift_prob && arr.any id then
        let rp := pyRandint (-2) 2 u1p.2
        (if rp.1 ≠ 0 then shiftArray arr rp.1 else arr, rp.2)
      else (arr, u1p.2)
    let u2p := pyRandom s1.2
    let s2 :=
      if qltb u2p.1 toggle_prob then
        applyToggles
          (max 1 (qtrunc (qmul (qofNat s1.1.length)
            (qmul (mkRat 1 10) (qadd (mkRat 1 2) c)))).toNat) s1.1 u2p.2
      else (s1.1, u2p.2)
    let s3 : List Bool × Option (List Bool) × RStream × RStream :=
      if drum_class = "HH_CLOSED" then
        let t1 :=
          if qltb (mkRat 7 10)
              (qdiv (qofNat (s2.1.countP id)) (qofNat s2.1.length)) then
            let mp := pyChoice ["eighths", "offbeat", "broken"] "broken" s2.2
            (applyHHThin mp.1 s2.1, mp.2)
          else (s2.1, s2.2)
        if qltb (mkRat 1 2) c && t1.1.any id then
          let u3p := pyRandom t1.2
          if qltb u3p.1 (qmul (mkRat 3 10) c) then
            let idxs := activeIdx t1.1
            let n_open :=
              max 1 (qtrunc (qmul (qofNat idxs.length) (qmul (mkRat 1 5) c))).toNat
            let ocp := npChoice idxs n_open np
            let a_open := indicator t1.1.length ocp.1
            let a2 := List.zipWith
              (fun i b => if ocp.1.contains i then false else b)
              (List.range t1.1.length) t1.1
            (a2,
             some (match merge with
               | none => a_open
               | some m => orArrays m a_open),
             u3p.2, ocp.2)
          else (t1.1, merge, u3p.2, np)
        else (t1.1, merge, t1.2, np)
      else (s2.1, merge, s2.2, np)
    let out := mutateVoices c shift_prob toggle_prob rest s3.2.1 s3.2.2.1 s3.2.2.2
    ((drum_class, s3.1) :: out.1, out.2)

/-- `_insert_random_pause`. -/
def insertRandomPause (P : DrumPatternGenerator)
    (arrays : List (String × List Bool)) (g : RStream) :
    List (String × List Bool) × RStream :=
  if qleb P.pause_probability (mkRat 0 1) || arrays.isEmpty then (arrays, g)
  else
    let up := pyRandom g
    if qltb P.pause_probability up.1 then (arrays, up.2)
    else
      let subdivisions := P.step_resolution
      if subdivisions = 0 then (arrays, up.2)
      else
        let len_16 := max 1 (subdivisions / 16)
        let len_8 := max 1 (subdivisions / 8)
        let len_4 := max 1 (subdivisions / 4)
        let len_2 := max 1 (subdivisions / 2)
        let pause_lengths := [len_16, len_8, len_4, len_2]
        let pause_weights := [mkRat 1 20, mkRat 7 20, mkRat 9 20, mkRat 3 20]
        let rp := pyRandom up.2
        let chosen_len := cumSelect (pause_lengths.zip pause_weights) (mkRat 0 1) rp.1 len_2
        let max_start : ℤ := max 0 ((subdivisions : ℤ) - (chosen_len : ℤ))
        let stp :=
          if max_start ≤ 0 then ((0 : ℤ), rp.2) else pyRandint 0 max_start rp.2
        (arrays.map (fun kv =>
          (kv.1, pySliceClear kv.2 stp.1.toNat (stp.1.toNat + chosen_len))), stp.2)

/-- `_mutate_bar_arrays` (the later, overriding definition in the source:
mutations gated on `complexity > 0`, then the pause stage in every case). -/
def mutateBarArrays (P : DrumPatternGenerator)
    (arrays : List (String × List Bool)) (complexity : ℚ) (g np : RStream) :
    List (String × List Bool) × RStream × RStream :=
  if qleb complexity (mkRat 0 1) then
    let ip := insertRandomPause P arrays g
    (ip.1, ip.2, np)
  else
    let shift_prob := qmul (mkRat 2 5) complexity
    let toggle_prob := qmul (mkRat 3 5) complexity
    let mv := mutateVoices complexity shift_prob toggle_prob arrays none g np
    let mutated :=
      match mv.2.1 with
      | none => mv.1
      | some m =>
        if (mv.1.lookup "HH_OPEN").isSome then
          updateAssoc mv.1 "HH_OPEN" (fun ex => orArrays ex m)
        else mv.1 ++ [("HH_OPEN", m)]
    let ip := insertRandomPause P mutated mv.2.2.1
    (ip.1, ip.2, mv.2.2.2)

/-- The fixed base-velocity table of `_arrays_to_events`. -/
def baseVelocityTable : List (String × ℤ) :=
  [("KICK", 100), ("SNARE", 95), ("SIDESTICK", 85), ("HH_CLOSED", 80),
   ("HH_OPEN", 85), ("TOM_LOW", 100), ("TOM_MID", 100), ("TOM_HIGH", 100),
   ("RIDE", 80), ("CRASH", 110)]

/-- `_arrays_to_events`. -/
def arraysToEvents (P : DrumPatternGenerator)
    (arrays : List (String × List Bool)) (bar_start seconds_per_bar : ℚ) :
    List DrumEvent :=
  let step_duration := qdiv seconds_per_bar (qofNat P.step_resolution)
  (arrays.map (fun kv =>
    let vel := (baseVelocityTable.lookup kv.1).getD 90
    ((List.range kv.2.length).filter (fun i => kv.2.getD i false)).map
      (fun step_idx =>
        { time_sec := qadd bar_start (qmul (qofNat step_idx) step_duration)
          drum_class := kv.1
          velocity := vel : DrumEvent }))).flatten

/-- `_compute_timing` (shared by the generator and the MIDI builder). -/
def computeTiming (spec : SongSpecification) : ℚ × ℚ × ℚ :=
  let beats_per_bar :=
    qmul (qofInt spec.time_signature.1) (qdiv (mkRat 4 1) (qofInt spec.time_signature.2))
  let seconds_per_beat := qdiv (mkRat 60 1) spec.tempo_bpm
  (beats_per_bar, seconds_per_beat, qmul beats_per_bar seconds_per_beat)

/-- The per-step body of `_add_ghostnotes_for_bar`: a snare neighbourhood test
(`snare_steps[max(0, idx-2) : min(subdivisions, idx+3)].any()`). -/
def ghostNeighborhood (snare : List Bool) (subdivisions idx : ℕ) : Bool :=
  (List.range (min subdivisions snare.length)).any (fun j =>
    decide ((idx : ℤ) - 2 ≤ (j : ℤ)) && decide ((j : ℤ) < (idx : ℤ) + 3) &&
      snare.getD j false)

/-- `_add_ghostnotes_for_bar`. -/
def addGhostnotesForBar (P : DrumPatternGenerator)
    (snare_steps : Option (List Bool)) (bar_start seconds_per_bar : ℚ)
    (g : RStream) : List DrumEvent × RStream :=
  match snare_steps with
  | none => ([], g)
  | some snare =>
    if qleb P.ghostnote_probability (mkRat 0 1) ||
        qleb P.complexity (mkRat 1 5) then ([], g)
    else
      let subdivisions := P.step_resolution
      let step_duration := qdiv seconds_per_bar (qofNat subdivisions)
      let base_p := qmul P.ghostnote_probability
        (qadd (mkRat 1 5) (qmul (mkRat 4 5) (fpow P.complexity (mkRat 6 5))))
      let vel : ℤ := if qltb P.complexity (mkRat 4 5) then 45 else 50
      (List.range subdivisions).foldl
        (fun (acc : List DrumEvent × RStream) idx =>
          if snare.getD idx false then acc
          else if ghostNeighborhood snare subdivisions idx then
            let up := pyRandom acc.2
            if qltb up.1 base_p then
              (acc.1 ++ [{ time_sec := qadd bar_start (qmul (qofNat idx) step_duration)
                           drum_class := "SNARE"
                           velocity := vel : DrumEvent }], up.2)
            else (acc.1, up.2)
          else acc)
        ([], g)

/-- One loop iteration of `generate_drum_track` (one bar): pattern choice,
conversion, mutation, event emission, ghost notes. -/
def genBar (P : DrumPatternGenerator) (patterns_dict : DrumPatternLib)
    (seconds_per_bar : ℚ) (bar_index : ℕ) (g np : RStream) :
    List DrumEvent × RStream × RStream :=
  let bar_start := qmul (qofNat bar_index) seconds_per_bar
  let cp := choosePatternName P.complexity patterns_dict g
  let base_pattern_strs := (patterns_dict.lookup cp.1).getD []
  let arrays0 := patternDictToArrays base_pattern_strs P.step_resolution
  let mv := mutateBarArrays P arrays0 P.complexity cp.2 np
  let evs := arraysToEvents P mv.1 bar_start seconds_per_bar
  let gh := addGhostnotesForBar P (mv.1.lookup "SNARE") bar_start
    seconds_per_bar mv.2.1
  (evs ++ gh.1, gh.2, mv.2.2)

/-- `generate_drum_track`: the flat drum event stream for the whole song. -/
def generateDrumTrack (P : DrumPatternGenerator) (spec : SongSpecification)
    (g np : RStream) : List DrumEvent :=
  let seconds_per_bar := (computeTiming spec).2.2
  let (patterns_dict, step_res) := selectPatternLibrary spec.style
  let P' := { P with step_resolution := step_res }
  ((List.range spec.number_of_bars).foldl
    (fun (acc : List DrumEvent × RStream × RStream) bar_index =>
      let r := genBar P' patterns_dict seconds_per_bar bar_index acc.2.1 acc.2.2
      (acc.1 ++ r.1, r.2))
    ([], g, np)).1

/-! ## MIDI song builder (`midi_song_builder.py`)

We model the `pretty_midi` objects the builder produces — what matters for
the claims is the list `pm.instruments` (tracks in append order), each with
its program, `is_drum` flag, name and note list. -/

/-- `pretty_midi.Note` (`stop` models the Python attribute `end`, a reserved
word in Lean). -/
structure PMNote where
  velocity : ℤ
  pitch : ℤ
  start : ℚ
  stop : ℚ
deriving DecidableEq, Repr

/-- `pretty_midi.Instrument`, as populated by the builder. -/
structure PMInstrument where
  program : ℤ
  is_drum : Bool
  name : String
  notes : List PMNote
deriving DecidableEq, Repr

/-- The `MidiSongBuilder` construction parameters. -/
structure MidiSongBuilder where
  sample_rate : ℤ
  ticks_per_beat : ℤ
  drum_mapping : DrumMapping
deriving DecidableEq, Repr

/-- A stable insertion sort; Python's `sorted` is a stable sort, and a stable
sort's output is uniquely determined by the key order and stability. -/
def insertStable (key : α → ℚ) (x : α) : List α → List α
  | [] => [x]
  | y :: ys => if qltb (key y) (key x) then y :: insertStable key x ys else x :: y :: ys

/-- `sorted(l, key=key)`. -/
def pySorted (key : α → ℚ) (l : List α) : List α := l.foldr (insertStable key) []

theorem insertStable_perm (key : α → ℚ) (x : α) (l : List α) :
    List.Perm (insertStable key x l) (x :: l) := by
  induction l with
  | nil => exact List.Perm.refl _
  | cons y ys ih =>
    simp only [insertStable]
    by_cases h : qltb (key y) (key x) = true
    · rw [if_pos h]
      exact List.Perm.trans (List.Perm.cons y ih) (List.Perm.swap x y ys)
    · rw [if_neg h]

theorem pySorted_perm (key : α → ℚ) (l : List α) : List.Perm (pySorted key l) l := by
  induction l with
  | nil => exact List.Perm.refl _
  | cons x xs ih =>
    exact List.Perm.trans (insertStable_perm key x _) (List.Perm.cons x ih)

/-- The drum-track construction of `build_pretty_midi` (lines 105–123): sort
the drum events by onset, map each class to its primary note, silently skip
events whose class raises `KeyError`. -/
def drumNotes (m : DrumMapping) (drum_events : List DrumEvent) : List PMNote :=
  (pySorted (fun e => e.time_sec) drum_events).filterMap (fun ev =>
    match getPrimaryNoteForClass m ev.drum_class with
    | .error _ => none
    | .ok pitch => some
      { velocity := ev.velocity, pitch := pitch, start := ev.time_sec,
        stop := qadd ev.time_sec (mkRat 1 20) })

/-- `build_pretty_midi`: the instrument/track list of the produced score.
The drum instrument is appended first (when it has notes), then the
channel-keyed harmonic instruments in dict-insertion order (band
configuration first, then unseen note-event channels), keeping only those
with notes. -/
def buildPrettyMidi (b : MidiSongBuilder) (spec : SongSpecification)
    (drum_events : List DrumEvent) (note_events : List NoteEvent) :
    List PMInstrument :=
  let drum_instrument : PMInstrument :=
    { program := 0, is_drum := true, name := "Drums",
      notes := drumNotes b.drum_mapping drum_events }
  let withDrums : List PMInstrument :=
    if drum_instrument.notes.isEmpty then [] else [drum_instrument]
  let step1 : List (ℤ × PMInstrument) :=
    spec.band_configuration.instruments.foldl
      (fun acc inst =>
        if (acc.lookup inst.channel).isSome then acc
        else acc ++ [(inst.channel,
          { program := inst.gm_program, is_drum := false, name := inst.name,
            notes := [] })]) []
  let step2 : List (ℤ × PMInstrument) :=
    note_events.foldl
      (fun acc ne =>
        if (acc.lookup ne.channel).isSome then acc
        else acc ++ [(ne.channel,
          { program := 0, is_drum := false,
            name := "Channel_" ++ toString ne.channel, notes := [] })]) step1
  let step3 : List (ℤ × PMInstrument) :=
    note_events.foldl
      (fun acc ne => updateAssoc acc ne.channel (fun inst =>
        { inst with notes := inst.notes ++
          [{ velocity := ne.velocity, pitch := ne.pitch,
             start := ne.start_time, stop := ne.end_time }] })) step2
  withDrums ++ (step3.map Prod.snd).filter (fun inst => !inst.notes.isEmpty)

/-! ## Harmony generator (`harmony_generator.py`): roman numerals, voice
leading, chord progression choice -/

def asciiUpperChar (c : Char) : Char :=
  if 'a' ≤ c ∧ c ≤ 'z' then Char.ofNat (c.toNat - 32) else c

/-- The degree table `I..VII → 0..6` of `_roman_to_degree_and_quality`. -/
def romanIndex (upper : List Char) : Option ℕ :=
  if upper = "I".data then some 0
  else if upper = "II".data then some 1
  else if upper = "III".data then some 2
  else if upper = "IV".data then some 3
  else if upper = "V".data then some 4
  else if upper = "VI".data then some 5
  else if upper = "VII".data then some 6
  else none

/-- `_roman_to_degree_and_quality`: strip, detect diminished (`°` or any
`o`), drop the decorations, lowercase ⇒ minor else major (overridden to
diminished), then resolve the base letters; unknown bases raise
(`.error`). -/
def romanToDegreeAndQuality (roman : String) : Except String (ℕ × String) :=
  let cs := pyStrip roman.data
  let is_dim := cs.contains '°' || (lowerL cs).contains 'o'
  let base := replaceL (replaceL (replaceL (replaceL cs "°".data []) "o".data [])
    "dim".data []) "+".data []
  let quality0 := if pyIsLower base then "min" else "maj"
  let quality := if is_dim then "dim" else quality0
  match romanIndex (base.map asciiUpperChar) with
  | none => .error ("Unbekannte Stufenbezeichnung: " ++ roman)
  | some degree_index => .ok (degree_index, quality)

/-- Sum of per-voice absolute pitch distances over the zipped (shared)
voices. -/
def sumAbsDiff (xs ys : List ℤ) : ℕ :=
  ((xs.zip ys).map (fun p => (p.1 - p.2).natAbs)).sum

/-- `_apply_voice_leading`: try the whole chord at −12/0/+12 semitones and
keep the candidate with the smallest mean absolute distance to the previous
voicing (`min` keeps the first minimum; an empty previous voicing — `None`
or `[]` — and an empty candidate set return the base voicing). -/
def applyVoiceLeading (base_voicing prev_voicing : List ℤ) : List ℤ :=
  if prev_voicing = [] then base_voicing
  else
    let candidates := [(-12 : ℤ), 0, 12].filterMap (fun shift =>
      let shifted := base_voicing.map (fun p => p + shift)
      let n := min shifted.length prev_voicing.length
      if n = 0 then none
      else some (qdiv (qofNat (sumAbsDiff shifted prev_voicing)) (qofNat n), shifted))
    match candidates with
    | [] => base_voicing
    | c :: cs =>
      (cs.foldl (fun best cand => if qltb cand.1 best.1 then cand else best) c).2

/-- `choose_chord_progression`: the candidate set by style/key, one draw from
the stream of `random.Random(seed + 100)` (passed as `g`), tiled and
truncated to the bar count. -/
def chooseChordProgression (spec : SongSpecification) (g : RStream) :
    List String :=
  let total_bars := spec.number_of_bars
  let candidate_progressions :=
    if containsSub spec.style.data "funk".data then
      [["I", "IV", "I", "V"], ["I", "ii", "IV", "V"]]
    else if containsSub (lowerL spec.key.data) "minor".data then
      [["i", "VI", "III", "VII"], ["i", "iv", "VII", "III"]]
    else
      [["I", "V", "vi", "IV"], ["I", "vi", "IV", "V"], ["I", "IV", "V", "IV"]]
  let base_progression := (pyChoice candidate_progressions [] g).1
  let repetitions :=
    (total_bars + base_progression.length - 1) / base_progression.length
  ((List.replicate repetitions base_progression).flatten).take total_bars

/-! ## Concrete fixtures used by the scenario claims -/

/-- The drum mapping of the repository's builder test helper
(`_create_example_drum_mapping` in `midi_song_builder.py`). -/
def exampleDrumMapping : DrumMapping :=
  { note_to_class := [(36, "KICK"), (38, "SNARE"), (42, "HH_CLOSED"), (49, "CRASH")]
    class_to_notes := [("KICK", [36]), ("SNARE", [38]), ("HH_CLOSED", [42]), ("CRASH", [49])]
    core_classes := ["KICK", "SNARE", "HH_CLOSED", "CRASH"] }

def pianoChordsInstrument : Instrument :=
  { name := "Acoustic Grand Piano", gm_program := 0, channel := 0,
    volume := mkRat 9 10, pan := mkRat 0 1, role := "chords" }

def fingerBassInstrument : Instrument :=
  { name := "Electric Bass (finger)", gm_program := 33, channel := 1,
    volume := mkRat 9 10, pan := qneg (mkRat 1 10), role := "bass" }

def leadSynthInstrument : Instrument :=
  { name := "Lead Synth", gm_program := 81, channel := 3,
    volume := mkRat 4 5, pan := mkRat 1 10, role := "lead" }

def pianoBassBand : BandConfiguration :=
  { drum_channel := 9, drum_mapping := exampleDrumMapping,
    instruments := [pianoChordsInstrument, fingerBassInstrument] }

/-- The minimal-pop scenario `SongSpecification`: tempo 120, 4/4, 4 bars,
C major, style "pop-straight", seed 1234, piano(chords)+bass band. -/
def specMinimalPop : SongSpecification :=
  { song_identifier := "song_minimal_pop", tempo_bpm := mkRat 120 1,
    time_signature := (4, 4), number_of_bars := 4, key := "C major",
    style := "pop-straight", band_configuration := pianoBassBand,
    random_seed := 1234 }

/-- The same song cut to one bar (used to exhibit the unseeded-`numpy`
divergence at a small input). -/
def specPopOneBar : SongSpecification :=
  { specMinimalPop with song_identifier := "song_pop_one_bar", number_of_bars := 1 }

/-- A generator instance with maximal complexity and no ghost notes, fills,
swing or pauses. -/
def genComplexityOne : DrumPatternGenerator :=
  { drum_mapping := exampleDrumMapping, complexity := mkRat 1 1,
    ghostnote_probability := mkRat 0 1, fill_probability := mkRat 0 1,
    swing_amount := mkRat 0 1, pause_probability := mkRat 0 1,
    step_resolution := 16 }

/-! ## Voice-leading lemmas -/

/-- Mean absolute per-voice pitch distance over the shared voice count. -/
def meanAbsDist (xs ys : List ℤ) : ℚ :=
  (sumAbsDiff xs ys : ℚ) / ((min xs.length ys.length : ℕ) : ℚ)

theorem qdiv_qofNat_eq (s n : ℕ) :
    qdiv (qofNat s) (qofNat n) = (s : ℚ) / (n : ℚ) := by
  rw [qdiv_eq, qofNat_eq, qofNat_eq]

/-- The first-minimum fold of Python's `min(candidates, key=first)` returns a
member of the candidate list. -/
theorem foldlMin_mem {β : Type} (c : ℚ × β) (cs : List (ℚ × β)) :
    cs.foldl (fun best cand => if qltb cand.1 best.1 then cand else best) c ∈
      c :: cs := by
  induction cs generalizing c with
  | nil => simp
  | cons d ds ih =>
    simp only [List.foldl_cons]
    rcases List.mem_cons.mp (ih (if qltb d.1 c.1 then d else c)) with h1 | h1
    · rw [h1]
      by_cases hq : qltb d.1 c.1 = true
      · simp [hq]
      · simp [hq]
    · exact List.mem_cons_of_mem _ (List.mem_cons_of_mem _ h1)

/-- The first-minimum fold's key is minimal over the candidate list. -/
theorem foldlMin_le {β : Type} (c : ℚ × β) (cs : List (ℚ × β)) :
    ∀ x ∈ c :: cs,
      (cs.foldl (fun best cand => if qltb cand.1 best.1 then cand else best) c).1 ≤
        x.1 := by
  induction cs generalizing c with
  | nil =>
    intro x hx
    rcases List.mem_cons.mp hx with h | h
    · subst h; simp
    · simp at h
  | cons d ds ih =>
    intro x hx
    simp only [List.foldl_cons]
    by_cases hq : qltb d.1 c.1 = true
    · rw [if_pos hq]
      have hdc : d.1 < c.1 := (qltb_iff d.1 c.1).mp hq
      have hres_d := ih d d (List.mem_cons_self d ds)
      rcases List.mem_cons.mp hx with h1 | h1
      · rw [h1]
        exact le_trans hres_d (le_of_lt hdc)
      · rcases List.mem_cons.mp h1 with h2 | h2
        · rw [h2]; exact hres_d
        · exact ih d x (List.mem_cons_of_mem d h2)
    · rw [if_neg hq]
      have hcd : c.1 ≤ d.1 :=
        le_of_not_lt (fun hcon => hq ((qltb_iff d.1 c.1).mpr hcon))
      have hres_c := ih c c (List.mem_cons_self c ds)
      rcases List.mem_cons.mp hx with h1 | h1
      · rw [h1]; exact hres_c
      · rcases List.mem_cons.mp h1 with h2 | h2
        · rw [h2]; exact le_trans hres_c hcd
        · exact ih c x (List.mem_cons_of_mem c h2)

theorem map_add_zero (l : List ℤ) : l.map (fun p => p + (0 : ℤ)) = l := by
  simp

/-- With a nonempty base and previous voicing, the candidate list of
`_apply_voice_leading` consists of exactly the −12/0/+12 shifts. -/
theorem applyVoiceLeading_candidates (base prev : List ℤ)
    (hb : base ≠ []) (hp : prev ≠ []) :
    [(-12 : ℤ), 0, 12].filterMap (fun shift =>
      let shifted := base.map (fun p => p + shift)
      let n := min shifted.length prev.length
      if n = 0 then none
      else some (qdiv (qofNat (sumAbsDiff shifted prev)) (qofNat n), shifted)) =
    [(-12 : ℤ), 0, 12].map (fun shift =>
      (qdiv (qofNat (sumAbsDiff (base.map (fun p => p + shift)) prev))
        (qofNat (min base.length prev.length)),
       base.map (fun p => p + shift))) := by
  have hmin : min base.length prev.length ≠ 0 := by
    have h1 : 0 < base.length := List.length_pos.mpr hb
    have h2 : 0 < prev.length := List.length_pos.mpr hp
    omega
  simp only [List.filterMap_cons, List.filterMap_nil, List.length_map]
  rw [if_neg hmin, if_neg hmin, if_neg hmin]
  simp

/-- One octave-shift candidate of `_apply_voice_leading`: its mean-distance
key and the shifted voicing. -/
def vlCand (base prev : List ℤ) (shift : ℤ) : ℚ × List ℤ :=
  (qdiv (qofNat (sumAbsDiff (base.map (fun p => p + shift)) prev))
    (qofNat (min base.length prev.length)),
   base.map (fun p => p + shift))

theorem vlCand_key (base prev : List ℤ) (s : ℤ) :
    (vlCand base prev s).1 = meanAbsDist (base.map (fun p => p + s)) prev := by
  rw [vlCand, meanAbsDist, qdiv_qofNat_eq]
  simp [List.length_map]

theorem applyVoiceLeading_main (base prev : List ℤ) (hb : base ≠ [])
    (hp : prev ≠ []) :
    applyVoiceLeading base prev =
      ([vlCand base prev 0, vlCand base prev 12].foldl
        (fun best cand => if qltb cand.1 best.1 then cand else best)
        (vlCand base prev (-12))).2 := by
  have hc := applyVoiceLeading_candidates base prev hb hp
  simp only [applyVoiceLeading, if_neg hp, hc, List.map_cons, List.map_nil]
  rfl

/-- C4: the voicing chosen by `_apply_voice_leading` is never a worse voice
leading (in mean absolute per-voice distance to the previous voicing over
the shared voice count) than the unshifted base voicing. -/
theorem c4_voice_leading_bound (base prev : List ℤ) (hb : base ≠ [])
    (hp : prev ≠ []) :
    meanAbsDist (applyVoiceLeading base prev) prev ≤ meanAbsDist base prev := by
  rw [applyVoiceLeading_main base prev hb hp]
  have hm := foldlMin_mem (vlCand base prev (-12))
    [vlCand base prev 0, vlCand base prev 12]
  have hle := foldlMin_le (vlCand base prev (-12))
    [vlCand base prev 0, vlCand base prev 12] (vlCand base prev 0)
    (by simp)
  have hkey : meanAbsDist
      (([vlCand base prev 0, vlCand base prev 12].foldl
        (fun best cand => if qltb cand.1 best.1 then cand else best)
        (vlCand base prev (-12))).2) prev =
      ([vlCand base prev 0, vlCand base prev 12].foldl
        (fun best cand => if qltb cand.1 best.1 then cand else best)
        (vlCand base prev (-12))).1 := by
    rcases List.mem_cons.mp hm with h1 | h1
    · rw [h1, vlCand_key]; rfl
    · rcases List.mem_cons.mp h1 with h2 | h2
      · rw [h2, vlCand_key]; rfl
      · rcases List.mem_cons.mp h2 with h3 | h3
        · rw [h3, vlCand_key]; rfl
        · simp at h3
  rw [hkey]
  calc ([vlCand base prev 0, vlCand base prev 12].foldl
        (fun best cand => if qltb cand.1 best.1 then cand else best)
        (vlCand base prev (-12))).1 ≤ (vlCand base prev 0).1 := hle
    _ = meanAbsDist base prev := by rw [vlCand_key, map_add_zero]

/-- C4 witness: the bound at a concrete pair of voicings. -/
theorem c4_voice_leading_bound_witness :
    ([60, 64, 67] : List ℤ) ≠ [] ∧ ([72, 76, 79] : List ℤ) ≠ [] ∧
      meanAbsDist (applyVoiceLeading [60, 64, 67] [72, 76, 79]) [72, 76, 79] ≤
        meanAbsDist [60, 64, 67] [72, 76, 79] :=
  ⟨by decide, by decide,
    c4_voice_leading_bound [60, 64, 67] [72, 76, 79] (by decide) (by decide)⟩

/-- C9: `_apply_voice_leading` always returns the base voicing shifted as a
whole by −12, 0, or +12 semitones — in particular the result has the base
voicing's length and preserves its chord shape. -/
theorem c9_voice_leading_octave_shift (base prev : List ℤ) :
    ∃ s : ℤ, (s = -12 ∨ s = 0 ∨ s = 12) ∧
      applyVoiceLeading base prev = base.map (fun p => p + s) ∧
      (applyVoiceLeading base prev).length = base.length := by
  by_cases hp : prev = []
  · refine ⟨0, Or.inr (Or.inl rfl), ?_, ?_⟩
    · rw [applyVoiceLeading, if_pos hp, map_add_zero]
    · rw [applyVoiceLeading, if_pos hp]
  · by_cases hb : base = []
    · subst hb
      refine ⟨0, Or.inr (Or.inl rfl), ?_, ?_⟩
      · simp [applyVoiceLeading, hp]
      · simp [applyVoiceLeading, hp]
    · rw [applyVoiceLeading_main base prev hb hp]
      have hm := foldlMin_mem (vlCand base prev (-12))
        [vlCand base prev 0, vlCand base prev 12]
      rcases List.mem_cons.mp hm with h1 | h1
      · exact ⟨-12, Or.inl rfl, by rw [h1]; rfl, by rw [h1]; simp [vlCand]⟩
      · rcases List.mem_cons.mp h1 with h2 | h2
        · exact ⟨0, Or.inr (Or.inl rfl), by rw [h2]; rfl, by rw [h2]; simp [vlCand]⟩
        · rcases List.mem_cons.mp h2 with h3 | h3
          · exact ⟨12, Or.inr (Or.inr rfl), by rw [h3]; rfl, by rw [h3]; simp [vlCand]⟩
          · simp at h3

/-- C3: roman numeral resolution — "V" is degree 4 major, "vi" degree 5
minor, "ii°" degree 1 diminished, and the malformed token "Z" raises
(an `.error` result). -/
theorem c3_roman_numeral_resolution :
    romanToDegreeAndQuality "V" = .ok (4, "maj") ∧
    romanToDegreeAndQuality "vi" = .ok (5, "min") ∧
    romanToDegreeAndQuality "ii°" = .ok (1, "dim") ∧
    (romanToDegreeAndQuality "Z").isOk = false := by
  refine ⟨?_, ?_, ?_, ?_⟩ <;> rfl

/-! ## Chord progression tiling lemmas (C10) -/

theorem tiled_progression (base : List String) (n : ℕ) (h4 : base.length = 4)
    (hacc : (base.all fun r => (romanToDegreeAndQuality r).isOk) = true) :
    ((((List.replicate ((n + base.length - 1) / base.length) base).flatten).take n).all
      fun r => (romanToDegreeAndQuality r).isOk) = true ∧
    (((List.replicate ((n + base.length - 1) / base.length) base).flatten).take n).length
      = n := by
  constructor
  · rw [List.all_eq_true]
    intro r hr
    have hr1 := List.mem_of_mem_take hr
    rcases List.mem_flatten.mp hr1 with ⟨l, hl, hrl⟩
    have hlb : l = base := List.eq_of_mem_replicate hl
    exact List.all_eq_true.mp hacc r (hlb ▸ hrl)
  · rw [List.length_take, List.length_flatten, List.map_replicate,
      List.sum_replicate, smul_eq_mul, h4]
    omega

/-- C10: every roman-numeral token of every progression produced by
`choose_chord_progression` is accepted by `_roman_to_degree_and_quality`
(the fatal unknown-token branch is unreachable from generated
progressions), and the progression has exactly `number_of_bars` entries. -/
theorem c10_progression_tokens_safe (spec : SongSpecification) (g : RStream) :
    ((chooseChordProgression spec g).all
      fun r => (romanToDegreeAndQuality r).isOk) = true ∧
    (chooseChordProgression spec g).length = spec.number_of_bars := by
  by_cases h1 : containsSub spec.style.data "funk".data = true
  · simp only [chooseChordProgression, if_pos h1]
    have hb := pyChoice_mem [["I", "IV", "I", "V"], ["I", "ii", "IV", "V"]]
      (by simp) [] g
    have hf : ∀ l ∈ [["I", "IV", "I", "V"], ["I", "ii", "IV", "V"]],
        l.length = 4 ∧ (l.all fun r => (romanToDegreeAndQuality r).isOk) = true := by
      decide
    obtain ⟨h4, hacc⟩ := hf _ hb
    exact tiled_progression _ spec.number_of_bars h4 hacc
  · by_cases h2 : containsSub (lowerL spec.key.data) "minor".data = true
    · simp only [chooseChordProgression, if_neg h1, if_pos h2]
      have hb := pyChoice_mem [["i", "VI", "III", "VII"], ["i", "iv", "VII", "III"]]
        (by simp) [] g
      have hf : ∀ l ∈ [["i", "VI", "III", "VII"], ["i", "iv", "VII", "III"]],
          l.length = 4 ∧ (l.all fun r => (romanToDegreeAndQuality r).isOk) = true := by
        decide
      obtain ⟨h4, hacc⟩ := hf _ hb
      exact tiled_progression _ spec.number_of_bars h4 hacc
    · simp only [chooseChordProgression, if_neg h1, if_neg h2]
      have hb := pyChoice_mem
        [["I", "V", "vi", "IV"], ["I", "vi", "IV", "V"], ["I", "IV", "V", "IV"]]
        (by simp) [] g
      have hf : ∀ l ∈ [["I", "V", "vi", "IV"], ["I", "vi", "IV", "V"],
          ["I", "IV", "V", "IV"]],
          l.length = 4 ∧ (l.all fun r => (romanToDegreeAndQuality r).isOk) = true := by
        decide
      obtain ⟨h4, hacc⟩ := hf _ hb
      exact tiled_progression _ spec.number_of_bars h4 hacc

/-! ## MIDI builder: dropped drum classes (C8) and track order (C2) -/

theorem length_filterMap_eq_countP {α β : Type} (f : α → Option β)
    (l : List α) :
    (l.filterMap f).length = l.countP (fun a => (f a).isSome) := by
  induction l with
  | nil => rfl
  | cons x xs ih =>
    cases hx : f x with
    | none => simp [List.filterMap_cons, hx, List.countP_cons, ih]
    | some y => simp [List.filterMap_cons, hx, List.countP_cons, ih]

theorem drumNotes_mem_of_ok (m : DrumMapping) (drums : List DrumEvent)
    (e : DrumEvent) (he : e ∈ drums) (p : ℤ)
    (hp : getPrimaryNoteForClass m e.drum_class = .ok p) :
    ({ velocity := e.velocity, pitch := p, start := e.time_sec,
       stop := qadd e.time_sec (mkRat 1 20) } : PMNote) ∈ drumNotes m drums := by
  rw [drumNotes]
  apply List.mem_filterMap.mpr
  refine ⟨e, (pySorted_perm (fun ev => ev.time_sec) drums).mem_iff.mpr he, ?_⟩
  rw [hp]

/-- C8: the drum-track assembly of `build_pretty_midi` never fails on an
unmappable drum class — exactly the mappable events produce notes (one per
mappable event, with the class's primary pitch, the event's velocity and
onset, and a 50 ms duration), and unmappable events are silently dropped. -/
theorem c8_unmappable_dropped (m : DrumMapping) (drums : List DrumEvent) :
    (drumNotes m drums).length =
      drums.countP (fun e => (getPrimaryNoteForClass m e.drum_class).isOk) ∧
    ∀ e ∈ drums, ∀ p : ℤ, getPrimaryNoteForClass m e.drum_class = .ok p →
      ({ velocity := e.velocity, pitch := p, start := e.time_sec,
         stop := qadd e.time_sec (mkRat 1 20) } : PMNote) ∈ drumNotes m drums := by
  constructor
  · rw [drumNotes, length_filterMap_eq_countP,
      (pySorted_perm (fun e => e.time_sec) drums).countP_eq]
    apply List.countP_congr
    intro e _
    cases h : getPrimaryNoteForClass m e.drum_class <;>
      simp [h, Except.isOk, Except.toBool]
  · intro e he p hp
    exact drumNotes_mem_of_ok m drums e he p hp

/-- C8 witness: a KICK event is emitted with its primary note while an
unknown COWBELL class is dropped, leaving exactly one note. -/
theorem c8_unmappable_dropped_witness :
    ({ velocity := 100, pitch := 36, start := mkRat 0 1,
       stop := qadd (mkRat 0 1) (mkRat 1 20) } : PMNote) ∈
      drumNotes exampleDrumMapping
        [⟨mkRat 0 1, "KICK", 100⟩, ⟨mkRat 1 2, "COWBELL", 90⟩] ∧
    (drumNotes exampleDrumMapping
      [⟨mkRat 0 1, "KICK", 100⟩, ⟨mkRat 1 2, "COWBELL", 90⟩]).length = 1 := by
  constructor
  · exact (c8_unmappable_dropped exampleDrumMapping
      [⟨mkRat 0 1, "KICK", 100⟩, ⟨mkRat 1 2, "COWBELL", 90⟩]).2
      ⟨mkRat 0 1, "KICK", 100⟩ (by decide) 36 rfl
  · exact (c8_unmappable_dropped exampleDrumMapping
      [⟨mkRat 0 1, "KICK", 100⟩, ⟨mkRat 1 2, "COWBELL", 90⟩]).1.trans (by decide)

theorem fold_band_nondrum (insts : List Instrument)
    (acc : List (ℤ × PMInstrument))
    (hacc : ∀ kv ∈ acc, kv.2.is_drum = false) :
    ∀ kv ∈ insts.foldl
      (fun acc inst =>
        if (acc.lookup inst.channel).isSome then acc
        else acc ++ [(inst.channel,
          { program := inst.gm_program, is_drum := false, name := inst.name,
            notes := [] })]) acc, kv.2.is_drum = false := by
  induction insts generalizing acc with
  | nil => exact hacc
  | cons i rest ih =>
    rw [List.foldl_cons]
    apply ih
    intro kv hkv
    by_cases h : ((acc.lookup i.channel).isSome : Bool) = true
    · rw [if_pos h] at hkv
      exact hacc kv hkv
    · rw [if_neg h] at hkv
      rcases List.mem_append.mp hkv with h1 | h1
      · exact hacc kv h1
      · simp at h1
        rw [h1]

theorem fold_generic_nondrum (notes : List NoteEvent)
    (acc : List (ℤ × PMInstrument))
    (hacc : ∀ kv ∈ acc, kv.2.is_drum = false) :
    ∀ kv ∈ notes.foldl
      (fun acc ne =>
        if (acc.lookup ne.channel).isSome then acc
        else acc ++ [(ne.channel,
          { program := 0, is_drum := false,
            name := "Channel_" ++ toString ne.channel, notes := [] })]) acc,
      kv.2.is_drum = false := by
  induction notes generalizing acc with
  | nil => exact hacc
  | cons n rest ih =>
    rw [List.foldl_cons]
    apply ih
    intro kv hkv
    by_cases h : ((acc.lookup n.channel).isSome : Bool) = true
    · rw [if_pos h] at hkv
      exact hacc kv hkv
    · rw [if_neg h] at hkv
      rcases List.mem_append.mp hkv with h1 | h1
      · exact hacc kv h1
      · simp at h1
        rw [h1]

theorem updateAssoc_pred {κ α : Type} [DecidableEq κ] (Q : α → Prop)
    (l : List (κ × α)) (k : κ) (f : α → α)
    (hl : ∀ kv ∈ l, Q kv.2) (hf : ∀ v, Q v → Q (f v)) :
    ∀ kv ∈ updateAssoc l k f, Q kv.2 := by
  induction l with
  | nil => intro kv hkv; simp [updateAssoc] at hkv
  | cons kv0 rest ih =>
    obtain ⟨k0, v0⟩ := kv0
    intro kv hkv
    simp only [updateAssoc] at hkv
    by_cases h : k0 = k
    · rw [if_pos h] at hkv
      rcases List.mem_cons.mp hkv with h1 | h1
      · rw [h1]
        exact hf v0 (hl (k0, v0) (List.mem_cons_self _ _))
      · exact hl kv (List.mem_cons_of_mem _ h1)
    · rw [if_neg h] at hkv
      rcases List.mem_cons.mp hkv with h1 | h1
      · rw [h1]
        exact hl (k0, v0) (List.mem_cons_self _ _)
      · exact ih (fun kv h => hl kv (List.mem_cons_of_mem _ h)) kv h1

theorem fold_addnotes_nondrum (notes : List NoteEvent)
    (acc : List (ℤ × PMInstrument))
    (hacc : ∀ kv ∈ acc, kv.2.is_drum = false) :
    ∀ kv ∈ notes.foldl
      (fun acc ne => updateAssoc acc ne.channel (fun inst =>
        { inst with notes := inst.notes ++
          [{ velocity := ne.velocity, pitch := ne.pitch,
             start := ne.start_time, stop := ne.end_time }] })) acc,
      kv.2.is_drum = false := by
  induction notes generalizing acc with
  | nil => exact hacc
  | cons n rest ih =>
    rw [List.foldl_cons]
    apply ih
    exact updateAssoc_pred (fun (v : PMInstrument) => v.is_drum = false) acc n.channel
      (fun inst =>
        { inst with notes := inst.notes ++
          [{ velocity := n.velocity, pitch := n.pitch,
             start := n.start_time, stop := n.end_time }] })
      hacc (fun v hv => hv)

/-- C2 (amended): whenever at least one drum event is mappable, the drum
track is the FIRST track of the assembled score (not the last), and every
following track is a non-drum instrument track. -/
theorem c2_drum_track_first (b : MidiSongBuilder) (spec : SongSpecification)
    (drums : List DrumEvent) (notes : List NoteEvent)
    (h : ∃ e ∈ drums,
      (getPrimaryNoteForClass b.drum_mapping e.drum_class).isOk = true) :
    ∃ d rest, buildPrettyMidi b spec drums notes = d :: rest ∧
      d.is_drum = true ∧ d.name = "Drums" ∧ ∀ t ∈ rest, t.is_drum = false := by
  obtain ⟨e, he, hok⟩ := h
  have hne : drumNotes b.drum_mapping drums ≠ [] := by
    rcases hp : getPrimaryNoteForClass b.drum_mapping e.drum_class with msg | p
    · rw [hp] at hok
      simp [Except.isOk, Except.toBool] at hok
    · exact List.ne_nil_of_mem (drumNotes_mem_of_ok b.drum_mapping drums e he p hp)
  have hempty : (drumNotes b.drum_mapping drums).isEmpty = false :=
    List.isEmpty_eq_false.mpr hne
  simp only [buildPrettyMidi, hempty, Bool.false_eq_true, if_false,
    List.singleton_append]
  refine ⟨_, _, rfl, rfl, rfl, ?_⟩
  intro t ht
  have ht1 := List.mem_of_mem_filter ht
  rcases List.mem_map.mp ht1 with ⟨kv, hkv, hkveq⟩
  rw [← hkveq]
  refine fold_addnotes_nondrum notes _ ?_ kv hkv
  refine fold_generic_nondrum notes _ ?_
  exact fold_band_nondrum spec.band_configuration.instruments [] (by simp)

/-- A band configuration listing a lead instrument before the chords
instrument (legal band data; the builder preserves this order). -/
def leadChordsBand : BandConfiguration :=
  { drum_channel := 9, drum_mapping := exampleDrumMapping,
    instruments := [leadSynthInstrument, pianoChordsInstrument] }

def specLeadChords : SongSpecification :=
  { specMinimalPop with
    song_identifier := "song_lead_chords",
    band_configuration := leadChordsBand }

def exampleBuilder : MidiSongBuilder :=
  { sample_rate := 16000, ticks_per_beat := 480,
    drum_mapping := exampleDrumMapping }

def c2DrumEvents : List DrumEvent := [⟨mkRat 0 1, "KICK", 100⟩]

def c2NoteEvents : List NoteEvent :=
  [⟨mkRat 0 1, mkRat 1 1, 84, 90, 3⟩, ⟨mkRat 0 1, mkRat 1 1, 60, 90, 0⟩]

/-- C2 counterexample: with one mappable drum event and note events on the
lead (channel 3) and chords (channel 0) instruments, the assembled score is
[Drums, Lead Synth, Acoustic Grand Piano]: the drum track comes first, not
last, and the instrument tracks follow band order, not role priority
(chords would have priority 0 and come before the lead's 3). -/
theorem c2_track_order_counterexample :
    (∃ e ∈ c2DrumEvents,
      (getPrimaryNoteForClass exampleDrumMapping e.drum_class).isOk = true) ∧
    c2NoteEvents ≠ [] ∧
    ((buildPrettyMidi exampleBuilder specLeadChords c2DrumEvents
      c2NoteEvents).map fun t => (t.name, t.is_drum)) =
      [("Drums", true), ("Lead Synth", false), ("Acoustic Grand Piano", false)] ∧
    ¬ (((buildPrettyMidi exampleBuilder specLeadChords c2DrumEvents
      c2NoteEvents).getLast?).map (fun t => t.is_drum) = some true) := by
  refine ⟨by decide, by decide, by decide, by decide⟩

/-- C2 witness: the amended drum-first shape at the concrete score. -/
theorem c2_drum_track_first_witness :
    ∃ d rest, buildPrettyMidi exampleBuilder specLeadChords c2DrumEvents
        c2NoteEvents = d :: rest ∧
      d.is_drum = true ∧ d.name = "Drums" ∧ ∀ t ∈ rest, t.is_drum = false :=
  c2_drum_track_first exampleBuilder specLeadChords c2DrumEvents c2NoteEvents
    (by decide)

/-! ## Ghost-note suppression (C6) -/

theorem mkRat_zero_one : (mkRat 0 1 : ℚ) = 0 := by
  rw [Rat.mkRat_eq_div]; norm_num

theorem mkRat_one_fifth : (mkRat 1 5 : ℚ) = 1 / 5 := by
  rw [Rat.mkRat_eq_div]; norm_num

theorem qleb_eq_false {a b : ℚ} (h : b < a) : qleb a b = false := by
  cases hq : qleb a b with
  | false => rfl
  | true => exact absurd ((qleb_iff a b).mp hq) (not_le.mpr h)

theorem qltb_eq_false {a b : ℚ} (h : b ≤ a) : qltb a b = false := by
  cases hq : qltb a b with
  | false => rfl
  | true => exact absurd ((qltb_iff a b).mp hq) (not_lt.mpr h)

/-- The gate of `_add_ghostnotes_for_bar` fires on low complexity: no events,
no stream consumption. -/
theorem addGhost_complexity_le (P : DrumPatternGenerator)
    (h : P.complexity ≤ 1 / 5) (snare : Option (List Bool)) (bs spb : ℚ)
    (g : RStream) : addGhostnotesForBar P snare bs spb g = ([], g) := by
  cases snare with
  | none => rfl
  | some s =>
    have hq : qleb P.complexity (mkRat 1 5) = true := by
      rw [qleb_iff, mkRat_one_fifth]; exact h
    simp [addGhostnotesForBar, hq]

/-- The gate of `_add_ghostnotes_for_bar` also fires on a non-positive
ghost-note probability. -/
theorem addGhost_prob_le (P : DrumPatternGenerator)
    (h : P.ghostnote_probability ≤ 0) (snare : Option (List Bool)) (bs spb : ℚ)
    (g : RStream) : addGhostnotesForBar P snare bs spb g = ([], g) := by
  cases snare with
  | none => rfl
  | some s =>
    have hq : qleb P.ghostnote_probability (0 : ℚ) = true := by
      rw [qleb_iff]; exact h
    simp [addGhostnotesForBar, mkRat_zero_one, hq]

/-- `_insert_random_pause` reads only the pause probability and the step
resolution of the generator instance. -/
theorem insertRandomPause_congr (P₁ P₂ : DrumPatternGenerator)
    (h1 : P₁.pause_probability = P₂.pause_probability)
    (h2 : P₁.step_resolution = P₂.step_resolution)
    (arrays : List (String × List Bool)) (g : RStream) :
    insertRandomPause P₁ arrays g = insertRandomPause P₂ arrays g := by
  simp only [insertRandomPause, h1, h2]

/-- `_mutate_bar_arrays` reads only the pause probability and the step
resolution of the generator instance. -/
theorem mutateBarArrays_congr (P₁ P₂ : DrumPatternGenerator)
    (h1 : P₁.pause_probability = P₂.pause_probability)
    (h2 : P₁.step_resolution = P₂.step_resolution)
    (arrays : List (String × List Bool)) (c : ℚ) (g np : RStream) :
    mutateBarArrays P₁ arrays c g np = mutateBarArrays P₂ arrays c g np := by
  simp only [mutateBarArrays, insertRandomPause_congr P₁ P₂ h1 h2]

/-- `_arrays_to_events` reads only the step resolution of the generator
instance. -/
theorem arraysToEvents_congr (P₁ P₂ : DrumPatternGenerator)
    (h2 : P₁.step_resolution = P₂.step_resolution)
    (arrays : List (String × List Bool)) (bs spb : ℚ) :
    arraysToEvents P₁ arrays bs spb = arraysToEvents P₂ arrays bs spb := by
  simp only [arraysToEvents, h2]

/-- With complexity below the threshold, one generation bar is unchanged by
zeroing the ghost-note probability. -/
theorem genBar_ghost_zero (P : DrumPatternGenerator) (h : P.complexity ≤ 1 / 5)
    (s : ℕ) (pd : DrumPatternLib) (spb : ℚ) (i : ℕ) (g np : RStream) :
    genBar { P with step_resolution := s } pd spb i g np =
      genBar { P with ghostnote_probability := 0, step_resolution := s } pd spb i g np := by
  have h1 := addGhost_complexity_le { P with step_resolution := s } (by simpa using h)
  have h2 := addGhost_prob_le
    { P with ghostnote_probability := 0, step_resolution := s } (by simp)
  have hm := mutateBarArrays_congr { P with step_resolution := s }
    { P with ghostnote_probability := 0, step_resolution := s } rfl rfl
  have ha := arraysToEvents_congr { P with step_resolution := s }
    { P with ghostnote_probability := 0, step_resolution := s } rfl
  simp only [genBar, h1, h2, hm, ha]

/-- C6: a generator constructed with complexity ≤ 0.2 injects no ghost notes:
the per-bar ghost stage returns nothing (whatever the probability parameter),
and the generated track equals the track of the same generator with
`ghostnote_probability` zeroed. -/
theorem c6_ghostnote_suppression (P : DrumPatternGenerator)
    (h : P.complexity ≤ 1 / 5) :
    (∀ (snare : Option (List Bool)) (bs spb : ℚ) (g : RStream),
      addGhostnotesForBar P snare bs spb g = ([], g)) ∧
    ∀ (spec : SongSpecification) (g np : RStream),
      generateDrumTrack P spec g np =
        generateDrumTrack { P with ghostnote_probability := 0 } spec g np := by
  constructor
  · exact fun snare bs spb g => addGhost_complexity_le P h snare bs spb g
  · intro spec g np
    dsimp only [generateDrumTrack]
    simp only [genBar_ghost_zero P h]

/-- A low-complexity generator with a high ghost-note probability. -/
def genLowComplexity : DrumPatternGenerator :=
  { drum_mapping := exampleDrumMapping, complexity := mkRat 1 10,
    ghostnote_probability := mkRat 9 10, fill_probability := mkRat 0 1,
    swing_amount := mkRat 0 1, pause_probability := mkRat 0 1,
    step_resolution := 16 }

/-- C6 witness: at complexity 0.1 and ghost probability 0.9 the ghost stage
returns nothing and the one-bar pop track matches the zero-probability run. -/
theorem c6_ghostnote_suppression_witness :
    genLowComplexity.complexity ≤ 1 / 5 ∧
    addGhostnotesForBar genLowComplexity (some [true, false]) 2 (mkRat 1 2)
        [mkRat 1 2] = ([], [mkRat 1 2]) ∧
    generateDrumTrack genLowComplexity specPopOneBar [] [] =
      generateDrumTrack { genLowComplexity with ghostnote_probability := 0 }
        specPopOneBar [] [] := by
  have h : genLowComplexity.complexity ≤ 1 / 5 := by
    norm_num [genLowComplexity, Rat.mkRat_eq_div]
  exact ⟨h,
    (c6_ghostnote_suppression genLowComplexity h).1 (some [true, false]) 2
      (mkRat 1 2) [mkRat 1 2],
    (c6_ghostnote_suppression genLowComplexity h).2 specPopOneBar [] []⟩

/-! ## Pause insertion at zero complexity (C7) -/

/-- A `randint(a, b)` result over a nonempty range lies in `[a, b]`. -/
theorem pyRandint_bounds (a b : ℤ) (h : a ≤ b) (g : RStream) :
    a ≤ (pyRandint a b g).1 ∧ (pyRandint a b g).1 ≤ b := by
  have h0 := pyRandom_fst_nonneg g
  have h1 := pyRandom_fst_lt_one g
  simp only [pyRandint, qfloor_eq, qmul_eq, qofInt_eq]
  have hk0 : (0 : ℤ) ≤ ⌊(pyRandom g).1 * ((b - a + 1 : ℤ) : ℚ)⌋ := by
    apply Int.floor_nonneg.mpr
    apply mul_nonneg h0
    exact_mod_cast (by omega : (0 : ℤ) ≤ b - a + 1)
  have hk1 : ⌊(pyRandom g).1 * ((b - a + 1 : ℤ) : ℚ)⌋ < b - a + 1 := by
    apply Int.floor_lt.mpr
    have hb : (0 : ℚ) < ((b - a + 1 : ℤ) : ℚ) := by
      exact_mod_cast (by omega : (0 : ℤ) < b - a + 1)
    calc (pyRandom g).1 * ((b - a + 1 : ℤ) : ℚ)
        < 1 * ((b - a + 1 : ℤ) : ℚ) := mul_lt_mul_of_pos_right h1 hb
      _ = ((b - a + 1 : ℤ) : ℚ) := one_mul _
  omega

/-- With `pause_probability = 1` and 16 steps per bar,
`_insert_random_pause` always clears one window of 1, 2, 4 or 8 steps
across all voices. -/
theorem insertRandomPause_pause_one (P : DrumPatternGenerator)
    (arrays : List (String × List Bool)) (g : RStream)
    (hp : P.pause_probability = 1) (hs : P.step_resolution = 16)
    (harr : arrays ≠ []) :
    ∃ start len g', (len = 1 ∨ len = 2 ∨ len = 4 ∨ len = 8) ∧
      start + len ≤ 16 ∧
      insertRandomPause P arrays g =
        (arrays.map (fun kv => (kv.1, pySliceClear kv.2 start (start + len))), g') := by
  have hc1 : qleb P.pause_probability (mkRat 0 1) = false := by
    rw [hp]
    exact qleb_eq_false (by rw [mkRat_zero_one]; norm_num)
  have hc2 : arrays.isEmpty = false := by
    simpa [List.isEmpty_iff] using harr
  have hu : (pyRandom g).1 < 1 := pyRandom_fst_lt_one g
  have hc3 : qltb P.pause_probability (pyRandom g).1 = false := by
    rw [hp]
    exact qltb_eq_false (le_of_lt hu)
  simp only [insertRandomPause, hc1, hc2, hs, Bool.or_self, Bool.false_or,
    Bool.false_eq_true, if_false, hc3]
  have e1 : max 1 ((16 : ℕ) / 16) = 1 := by norm_num
  have e2 : max 1 ((16 : ℕ) / 8) = 2 := by norm_num
  have e3 : max 1 ((16 : ℕ) / 4) = 4 := by norm_num
  have e4 : max 1 ((16 : ℕ) / 2) = 8 := by norm_num
  rw [e1, e2, e3, e4]
  set L := cumSelect ([1, 2, 4, 8].zip
    [mkRat 1 20, mkRat 7 20, mkRat 9 20, mkRat 3 20]) (mkRat 0 1)
    (pyRandom (pyRandom g).2).1 8 with hL
  have hlen : L = 1 ∨ L = 2 ∨ L = 4 ∨ L = 8 := by
    rcases cumSelect_mem ([1, 2, 4, 8].zip
        [mkRat 1 20, mkRat 7 20, mkRat 9 20, mkRat 3 20]) (mkRat 0 1)
        (pyRandom (pyRandom g).2).1 8 with hmem | hlast
    · rw [← hL] at hmem
      have hmap : (([1, 2, 4, 8].zip
          [mkRat 1 20, mkRat 7 20, mkRat 9 20, mkRat 3 20]).map Prod.fst) =
          [1, 2, 4, 8] := rfl
      rw [hmap] at hmem
      simpa using hmem
    · rw [← hL] at hlast
      exact Or.inr (Or.inr (Or.inr hlast))
  have hlen8 : L ≤ 8 := by rcases hlen with h | h | h | h <;> omega
  have hpos : ¬ (max 0 (((16 : ℕ) : ℤ) - (L : ℤ)) ≤ 0) := by omega
  rw [if_neg (by norm_num : ¬ ((16 : ℕ) = 0)), if_neg hpos]
  obtain ⟨hst0, hstle⟩ := pyRandint_bounds 0
    (max 0 (((16 : ℕ) : ℤ) - (L : ℤ))) (le_max_left 0 _)
    (pyRandom (pyRandom g).2).2
  refine ⟨(pyRandint 0 (max 0 (((16 : ℕ) : ℤ) - (L : ℤ)))
      (pyRandom (pyRandom g).2).2).1.toNat, L,
    (pyRandint 0 (max 0 (((16 : ℕ) : ℤ) - (L : ℤ)))
      (pyRandom (pyRandom g).2).2).2, hlen, by omega, rfl⟩

/-- C7: at complexity 0 and pause probability 1, the whole mutation stage of
a bar is exactly one contiguous silenced window of 1/16, 1/8, 1/4 or 1/2 of
the 16-step bar, cleared simultaneously in every drum voice; no shift,
toggle or hi-hat mutation happens. -/
theorem c7_pause_window (P : DrumPatternGenerator)
    (arrays : List (String × List Bool)) (c : ℚ) (g np : RStream)
    (hc : c ≤ 0) (hp : P.pause_probability = 1) (hs : P.step_resolution = 16) :
    ∃ start len g', (len = 1 ∨ len = 2 ∨ len = 4 ∨ len = 8) ∧
      start + len ≤ 16 ∧
      mutateBarArrays P arrays c g np =
        (arrays.map (fun kv => (kv.1, pySliceClear kv.2 start (start + len))), g', np) := by
  have hcq : qleb c (mkRat 0 1) = true := by
    rw [qleb_iff, mkRat_zero_one]; exact hc
  have hcq0 : qleb c (0 : ℚ) = true := by
    rw [qleb_iff]; exact hc
  by_cases harr : arrays = []
  · subst harr
    refine ⟨0, 1, g, Or.inl rfl, by omega, ?_⟩
    simp [mutateBarArrays, hcq, hcq0, insertRandomPause]
  · obtain ⟨start, len, g', hlen, hle, heq⟩ :=
      insertRandomPause_pause_one P arrays g hp hs harr
    refine ⟨start, len, g', hlen, hle, ?_⟩
    simp [mutateBarArrays, hcq, hcq0, heq]

/-! ## Drum-class closure for the pop-straight library (C5) -/

/-- The drum voices occurring in the pop-straight pattern library. -/
def popClasses : List String :=
  ["KICK", "SNARE", "HH_CLOSED", "HH_OPEN", "SIDESTICK", "TOM_LOW", "TOM_MID",
   "TOM_HIGH", "CRASH", "RIDE"]

theorem lookup_mem {α : Type} (l : List (String × α)) (k : String) (v : α)
    (h : l.lookup k = some v) : (k, v) ∈ l := by
  induction l with
  | nil => simp [List.lookup] at h
  | cons kv rest ih =>
    obtain ⟨k', v'⟩ := kv
    simp only [List.lookup] at h
    cases he : (k == k') with
    | true =>
      rw [he] at h
      simp only [Option.some.injEq] at h
      have hk : k = k' := by simpa using he
      rw [hk, ← h]
      exact List.mem_cons_self _ _
    | false =>
      rw [he] at h
      exact List.mem_cons_of_mem _ (ih h)

theorem mutateVoices_keys (c sp tp : ℚ) (arrays : List (String × List Bool))
    (merge : Option (List Bool)) (g np : RStream) :
    (mutateVoices c sp tp arrays merge g np).1.map Prod.fst =
      arrays.map Prod.fst := by
  induction arrays generalizing merge g np with
  | nil => rfl
  | cons kv rest ih =>
    obtain ⟨dc, arr⟩ := kv
    simp [mutateVoices, ih]

theorem updateAssoc_keys {α : Type} (l : List (String × α)) (k : String)
    (f : α → α) : (updateAssoc l k f).map Prod.fst = l.map Prod.fst := by
  induction l with
  | nil => rfl
  | cons kv rest ih =>
    obtain ⟨k', v'⟩ := kv
    by_cases h : k' = k
    · simp [updateAssoc, h]
    · simp [updateAssoc, h, ih]

theorem insertRandomPause_keys (P : DrumPatternGenerator)
    (arrays : List (String × List Bool)) (g : RStream) :
    (insertRandomPause P arrays g).1.map Prod.fst = arrays.map Prod.fst := by
  simp only [insertRandomPause]
  split
  · rfl
  · split
    · rfl
    · split
      · rfl
      · simp [List.map_map]

/-- The mutation stage only ever adds the `HH_OPEN` voice. -/
theorem mutateBarArrays_keys (P : DrumPatternGenerator)
    (arrays : List (String × List Bool)) (c : ℚ) (g np : RStream) :
    ∀ k ∈ (mutateBarArrays P arrays c g np).1.map Prod.fst,
      k ∈ arrays.map Prod.fst ∨ k = "HH_OPEN" := by
  intro k hk
  simp only [mutateBarArrays] at hk
  split at hk
  · rw [insertRandomPause_keys] at hk
    exact Or.inl hk
  · rw [insertRandomPause_keys] at hk
    split at hk
    · rw [mutateVoices_keys] at hk
      exact Or.inl hk
    · split at hk
      · rw [updateAssoc_keys, mutateVoices_keys] at hk
        exact Or.inl hk
      · rw [List.map_append, mutateVoices_keys] at hk
        rcases List.mem_append.mp hk with h | h
        · exact Or.inl h
        · simp at h
          exact Or.inr h

theorem arraysToEvents_classes (P : DrumPatternGenerator)
    (arrays : List (String × List Bool)) (bs spb : ℚ) :
    ∀ e ∈ arraysToEvents P arrays bs spb, e.drum_class ∈ arrays.map Prod.fst := by
  intro e he
  simp only [arraysToEvents] at he
  rcases List.mem_flatten.mp he with ⟨sub, hsub, hesub⟩
  rcases List.mem_map.mp hsub with ⟨kv, hkv, hkveq⟩
  rw [← hkveq] at hesub
  rcases List.mem_map.mp hesub with ⟨step, _, heq⟩
  rw [← heq]
  exact List.mem_map.mpr ⟨kv, hkv, rfl⟩

theorem addGhost_classes (P : DrumPatternGenerator)
    (snare : Option (List Bool)) (bs spb : ℚ) (g : RStream) :
    ∀ e ∈ (addGhostnotesForBar P snare bs spb g).1, e.drum_class = "SNARE" := by
  cases snare with
  | none => intro e he; simp [addGhostnotesForBar] at he
  | some s =>
    simp only [addGhostnotesForBar]
    split
    · intro e he; simp at he
    · have main : ∀ (l : List ℕ) (acc : List DrumEvent × RStream),
          (∀ e ∈ acc.1, e.drum_class = "SNARE") →
          ∀ e ∈ (l.foldl (fun (acc : List DrumEvent × RStream) idx =>
            if s.getD idx false then acc
            else if ghostNeighborhood s P.step_resolution idx then
              let up := pyRandom acc.2
              if qltb up.1 (qmul P.ghostnote_probability
                  (qadd (mkRat 1 5)
                    (qmul (mkRat 4 5) (fpow P.complexity (mkRat 6 5))))) then
                (acc.1 ++ [{ time_sec := qadd bs (qmul (qofNat idx)
                              (qdiv spb (qofNat P.step_resolution)))
                             drum_class := "SNARE"
                             velocity := if qltb P.complexity (mkRat 4 5) then 45
                               else 50 : DrumEvent }], up.2)
              else (acc.1, up.2)
            else acc) acc).1, e.drum_class = "SNARE" := by
        intro l
        induction l with
        | nil => intro acc hacc e he; exact hacc e he
        | cons i rest ih =>
          intro acc hacc e he
          rw [List.foldl_cons] at he
          refine ih _ ?_ e he
          intro e' he'
          by_cases h1 : s.getD i false = true
          · rw [if_pos h1] at he'
            exact hacc e' he'
          · rw [if_neg (by simpa using h1)] at he'
            by_cases h2 : ghostNeighborhood s P.step_resolution i = true
            · rw [if_pos h2] at he'
              by_cases h3 : qltb (pyRandom acc.2).1 (qmul P.ghostnote_probability
                  (qadd (mkRat 1 5)
                    (qmul (mkRat 4 5) (fpow P.complexity (mkRat 6 5))))) = true
              · simp only [if_pos h3] at he'
                rcases List.mem_append.mp he' with h | h
                · exact hacc e' h
                · simp at h
                  rw [h]
              · simp only [if_neg h3] at he'
                exact hacc e' he'
            · rw [if_neg (by simpa using h2)] at he'
              exact hacc e' he'
      exact main (List.range P.step_resolution) ([], g) (by intro e he; simp at he)

/-- One generated bar only emits drum classes drawn from the library's
voices, the converted `HH_OPEN` voice, and ghost `SNARE` hits. -/
theorem genBar_classes (P : DrumPatternGenerator) (pd : DrumPatternLib)
    (spb : ℚ) (i : ℕ) (g np : RStream)
    (hpd : ∀ nv ∈ pd, ∀ kv ∈ nv.2, kv.1 ∈ popClasses) :
    ∀ e ∈ (genBar P pd spb i g np).1, e.drum_class ∈ popClasses := by
  intro e he
  simp only [genBar] at he
  rcases List.mem_append.mp he with h | h
  · have h1 := arraysToEvents_classes P _ _ _ e h
    rcases mutateBarArrays_keys P _ _ _ _ _ h1 with h2 | h2
    · -- a key of the looked-up base pattern
      rcases hlook : pd.lookup (choosePatternName P.complexity pd g).1 with _ | v
      · rw [hlook] at h2
        simp [patternDictToArrays] at h2
      · rw [hlook] at h2
        simp only [Option.getD_some, patternDictToArrays, List.map_map] at h2
        rcases List.mem_map.mp h2 with ⟨kv, hkv, hkeq⟩
        rw [← hkeq]
        exact hpd _ (lookup_mem pd _ v hlook) kv hkv
    · rw [h2]; decide
  · have := addGhost_classes P _ _ _ _ e h
    rw [this]; decide

/-- The per-song bar fold only emits classes from the library's voices plus
`HH_OPEN` and `SNARE`. -/
theorem foldBars_classes (P' : DrumPatternGenerator) (pd : DrumPatternLib)
    (spb : ℚ) (hpd : ∀ nv ∈ pd, ∀ kv ∈ nv.2, kv.1 ∈ popClasses) :
    ∀ (l : List ℕ) (acc : List DrumEvent × RStream × RStream),
      (∀ e ∈ acc.1, e.drum_class ∈ popClasses) →
      ∀ e ∈ (l.foldl
        (fun (acc : List DrumEvent × RStream × RStream) bar_index =>
          let r := genBar P' pd spb bar_index acc.2.1 acc.2.2
          (acc.1 ++ r.1, r.2)) acc).1, e.drum_class ∈ popClasses := by
  intro l
  induction l with
  | nil => intro acc hacc e he; exact hacc e he
  | cons i rest ih =>
    intro acc hacc e he
    rw [List.foldl_cons] at he
    refine ih _ ?_ e he
    intro e' he'
    dsimp only at he'
    rcases List.mem_append.mp he' with h | h
    · exact hacc e' h
    · exact genBar_classes P' pd spb i acc.2.1 acc.2.2 hpd e' h

/-- C5 (amended): for the minimal-pop scenario song (tempo 120, 4/4, 4 bars,
C major, style "pop-straight", seed 1234, piano+bass band) and every
generator parameterisation and every pair of random streams, each generated
drum event's class lies in the pop-straight library's voice set — but that
set also contains CRASH, RIDE, SIDESTICK, the toms, and HH_OPEN. -/
theorem c5_popstraight_class_closure (P : DrumPatternGenerator)
    (g np : RStream) :
    ((generateDrumTrack P specMinimalPop g np).all
      fun e => popClasses.contains e.drum_class) = true := by
  rw [List.all_eq_true]
  intro e he
  have hpd : ∀ nv ∈ popStraightPatterns, ∀ kv ∈ nv.2, kv.1 ∈ popClasses := by
    decide
  dsimp only [generateDrumTrack] at he
  have hmem : e.drum_class ∈ popClasses := by
    refine foldBars_classes
      { P with step_resolution := (selectPatternLibrary specMinimalPop.style).2 }
      (selectPatternLibrary specMinimalPop.style).1
      (computeTiming specMinimalPop).2.2 ?_
      (List.range specMinimalPop.number_of_bars) ([], g, np)
      (by intro x hx; simp at hx) e he
    rw [show (selectPatternLibrary specMinimalPop.style).1 = popStraightPatterns
      from rfl]
    exact hpd
  exact List.elem_eq_true_of_mem hmem

/-- C5 counterexample: at the scenario's SongSpecification, a generator with
complexity 1 and a realizable stream that picks the pattern
`pop_straight_02_kick_syncopated` in bar 1 produces a CRASH event, so the
drum output is not restricted to KICK/SNARE/HH_CLOSED. -/
theorem c5_crash_event_counterexample :
    ((generateDrumTrack genComplexityOne specMinimalPop
      [mkRat 9 10, mkRat 2 25, mkRat 9 10, mkRat 9 10, mkRat 9 10, mkRat 9 10,
       mkRat 9 10, mkRat 9 10, mkRat 9 10, mkRat 9 10, mkRat 9 10] []).all
      fun e => ["KICK", "SNARE", "HH_CLOSED"].contains e.drum_class) = false := by
  decide

/-- C1: the drum generator's open-hat mutation consults `numpy.random`,
which the repository never seeds, so with the song specification, the seeded
`random`-module stream and all construction parameters fixed, two runs that
differ only in the ambient `numpy` stream state produce different DrumEvent
lists. -/
theorem c1_np_stream_nondeterminism :
    generateDrumTrack genComplexityOne specPopOneBar
      [mkRat 9 10, mkRat 1 100, mkRat 9 10, mkRat 9 10, mkRat 9 10, mkRat 9 10,
       mkRat 9 10, mkRat 9 10, mkRat 1 10] [mkRat 0 1] ≠
    generateDrumTrack genComplexityOne specPopOneBar
      [mkRat 9 10, mkRat 1 100, mkRat 9 10, mkRat 9 10, mkRat 9 10, mkRat 9 10,
       mkRat 9 10, mkRat 9 10, mkRat 1 10] [mkRat 9 10] := by
  decide

/-- C7 witness: the pause window at a concrete bar. -/
theorem c7_pause_window_witness :
    ((0 : ℚ) ≤ 0) ∧
    ∃ start len g', (len = 1 ∨ len = 2 ∨ len = 4 ∨ len = 8) ∧
      start + len ≤ 16 ∧
      mutateBarArrays
        { genComplexityOne with pause_probability := 1 }
        [("KICK", patternStrToArray "x-------x-------" 16)]
        0 [mkRat 1 2, mkRat 1 2, mkRat 1 2] [] =
        ([("KICK", pySliceClear (patternStrToArray "x-------x-------" 16)
            start (start + len))], g', []) := by
  refine ⟨le_refl 0, ?_⟩
  obtain ⟨start, len, g', hlen, hle, heq⟩ :=
    c7_pause_window { genComplexityOne with pause_probability := 1 }
      [("KICK", patternStrToArray "x-------x-------" 16)] 0
      [mkRat 1 2, mkRat 1 2, mkRat 1 2] [] (le_refl 0) rfl rfl
  exact ⟨start, len, g', hlen, hle, by simpa using heq⟩

end Sdg
